import Mathlib

/-!
Verification of the lead deduplication and upsert engine of
contabilidade/macros (services.py, models.py, views.py).

The Python source is shallowly embedded: pure helper functions become Lean
functions on String/List Char, the Django ORM state becomes an explicit DB
record (a list of MacroLead rows plus an id counter and a logical clock), and
code that can raise becomes Except-valued. Machine words in the SHA-256
digest are Nat values reduced mod 2^32. All definitions are executable.
-/

set_option maxRecDepth 40000

/-- Python exceptions that the embedded code can raise. -/
inductive PyErr where
  | valueError
  | integrityError
deriving DecidableEq, Repr

/-- Decidable equality for raise-or-return results, so that concrete runs of
    the embedded code can be checked by evaluation. -/
instance exceptDecEq {ε α : Type} [DecidableEq ε] [DecidableEq α] :
    DecidableEq (Except ε α) := fun x y =>
  match x, y with
  | .ok a, .ok b =>
    if h : a = b then .isTrue (by rw [h])
    else .isFalse (by intro hc; cases hc; exact h rfl)
  | .ok _, .error _ => .isFalse (by intro hc; cases hc)
  | .error _, .ok _ => .isFalse (by intro hc; cases hc)
  | .error e, .error f =>
    if h : e = f then .isTrue (by rw [h])
    else .isFalse (by intro hc; cases hc; exact h rfl)

/-! ## Character and string primitives

Python string operations modelled on the character list of a Lean String.
The repository feeds ASCII CSV/JSON data through these paths; the model is
exact on ASCII and on the Latin-1 accented letters used by the source data.
-/

/-- Python str.strip() whitespace class (ASCII subset). -/
def isPySpace (c : Char) : Bool :=
  c = ' ' || c = '\t' || c = '\n' || c = '\r' || c = '\x0b' || c = '\x0c'

/-- str.strip() on a character list. -/
def pyStripList (l : List Char) : List Char :=
  ((l.dropWhile isPySpace).reverse.dropWhile isPySpace).reverse

/-- Python str.strip(). -/
def pyStrip (s : String) : String :=
  String.mk (pyStripList s.data)

/-- Python str.lower() (ASCII case mapping, which is also the semantics of
    the sqlite backend behind Django __iexact lookups). -/
def pyLower (s : String) : String :=
  String.mk (s.data.map Char.toLower)

/-- Case-insensitive string equality: Django __iexact on the sqlite backend. -/
def iexact (a b : String) : Bool :=
  pyLower a == pyLower b

/-- Unicode NFKD decomposition followed by removal of combining marks, as a
    per-character map. Identity on ASCII; accented Latin letters used by the
    Portuguese source data map to their base letter; combining marks
    (U+0300-U+036F) are dropped. -/
def latinBase (c : Char) : Option Char :=
  if 0x300 ≤ c.toNat ∧ c.toNat ≤ 0x36F then none
  else some <|
    match c with
    | 'á' | 'à' | 'â' | 'ã' | 'ä' => 'a'
    | 'Á' | 'À' | 'Â' | 'Ã' | 'Ä' => 'A'
    | 'é' | 'è' | 'ê' | 'ë' => 'e'
    | 'É' | 'È' | 'Ê' | 'Ë' => 'E'
    | 'í' | 'ì' | 'î' | 'ï' => 'i'
    | 'Í' | 'Ì' | 'Î' | 'Ï' => 'I'
    | 'ó' | 'ò' | 'ô' | 'õ' | 'ö' => 'o'
    | 'Ó' | 'Ò' | 'Ô' | 'Õ' | 'Ö' => 'O'
    | 'ú' | 'ù' | 'û' | 'ü' => 'u'
    | 'Ú' | 'Ù' | 'Û' | 'Ü' => 'U'
    | 'ç' => 'c'
    | 'Ç' => 'C'
    | 'ñ' => 'n'
    | 'Ñ' => 'N'
    | _ => c

/-- Python regex word character, ASCII fragment: [A-Za-z0-9_]. -/
def isWordChar (c : Char) : Bool :=
  c.isAlphanum || c = '_'

/-- Collapse every run of whitespace to one space (re.sub of a whitespace run
    with a single space). The Bool argument records whether the previous kept
    character was produced from whitespace. -/
def collapseWsAux : Bool → List Char → List Char
  | _, [] => []
  | prevSpace, c :: rest =>
    if isPySpace c then
      if prevSpace then collapseWsAux true rest
      else ' ' :: collapseWsAux true rest
    else c :: collapseWsAux false rest

/-- re.sub of whitespace runs with a single space, then str.strip():
    the composition used throughout services.py. -/
def collapseWs (s : String) : String :=
  String.mk (pyStripList (collapseWsAux false s.data))

/-- services.py normalize_text: strip, NFKD-decompose and drop combining
    marks, replace runs of characters outside word/space/hyphen with a space,
    collapse whitespace, strip. Replacing each such character (rather than
    each maximal run) with one space gives the same result because the final
    whitespace collapse merges adjacent spaces. -/
def normalize_text (value : String) : String :=
  let t1 := pyStripList value.data
  let t2 := t1.filterMap latinBase
  let t3 := t2.map fun c => if isWordChar c || isPySpace c || c = '-' then c else ' '
  collapseWs (String.mk t3)

/-- services.py normalize_header: normalize_text, then underscores to spaces,
    then lowercase. -/
def normalize_header (value : String) : String :=
  pyLower (String.mk ((normalize_text value).data.map fun c => if c = '_' then ' ' else c))

/-- services.py normalize_phone: keep only digits; a string already carrying
    a leading 55 and longer than 11 digits is returned as is; a bare 10 or 11
    digit local number gains the 55 country code; anything else is returned
    unchanged. -/
def normalize_phone (value : String) : String :=
  let digits := String.mk (value.data.filter Char.isDigit)
  if "55".data.isPrefixOf digits.data ∧ digits.length > 11 then digits
  else if digits.length = 10 ∨ digits.length = 11 then "55" ++ digits
  else digits

/-- services.py normalize_value: strip, then per-field treatment. -/
def normalize_value (field : String) (value : String) : String :=
  let text := pyStrip value
  if field = "city" ∨ field = "target_region" ∨ field = "contract_status"
      ∨ field = "company_category" then
    normalize_text text
  else if field = "establishment_name" ∨ field = "representative_name"
      ∨ field = "address" then
    collapseWs text
  else if field = "representative_phone" then
    text
  else
    text

/-! ## UTF-8 and SHA-256

build_unique_key hashes the UTF-8 bytes of the joined key parts with
hashlib.sha256 and renders the digest in lowercase hex. Bytes and 32-bit
words are Nat values; word arithmetic is reduced mod 2^32 explicitly.
-/

/-- UTF-8 encoding of one code point, as Nat byte values. -/
def utf8Char (c : Char) : List Nat :=
  let n := c.toNat
  if n < 128 then [n]
  else if n < 2048 then [192 + n / 64, 128 + n % 64]
  else if n < 65536 then [224 + n / 4096, 128 + n / 64 % 64, 128 + n % 64]
  else [240 + n / 262144, 128 + n / 4096 % 64, 128 + n / 64 % 64, 128 + n % 64]

/-- UTF-8 encoding of a string. -/
def utf8 (s : String) : List Nat :=
  s.data.foldr (fun c acc => utf8Char c ++ acc) []

/-- Truncation to a 32-bit word. -/
def w32 (n : Nat) : Nat := n % 4294967296

/-- 32-bit right rotation. -/
def rotr (k n : Nat) : Nat :=
  w32 ((n >>> k) ||| (n <<< (32 - k)))

def shaCh (x y z : Nat) : Nat := w32 ((x &&& y) ^^^ ((x ^^^ 4294967295) &&& z))
def shaMaj (x y z : Nat) : Nat := w32 ((x &&& y) ^^^ (x &&& z) ^^^ (y &&& z))
def shaS0 (x : Nat) : Nat := w32 (rotr 2 x ^^^ rotr 13 x ^^^ rotr 22 x)
def shaS1 (x : Nat) : Nat := w32 (rotr 6 x ^^^ rotr 11 x ^^^ rotr 25 x)
def shas0 (x : Nat) : Nat := w32 (rotr 7 x ^^^ rotr 18 x ^^^ (x >>> 3))
def shas1 (x : Nat) : Nat := w32 (rotr 17 x ^^^ rotr 19 x ^^^ (x >>> 10))

/-- The 64 SHA-256 round constants of FIPS 180-4 (the first 32 bits of the
    fractional parts of the cube roots of the first 64 primes), written in
    decimal since the model words are Nat values. -/
def shaK : List Nat :=
  [
   1116352408, 1899447441, 3049323471, 3921009573, 961987163, 1508970993,
   2453635748, 2870763221, 3624381080, 310598401, 607225278, 1426881987,
   1925078388, 2162078206, 2614888103, 3248222580, 3835390401, 4022224774,
   264347078, 604807628, 770255983, 1249150122, 1555081692, 1996064986,
   2554220882, 2821834349, 2952996808, 3210313671, 3336571891, 3584528711,
   113926993, 338241895, 666307205, 773529912, 1294757372, 1396182291,
   1695183700, 1986661051, 2177026350, 2456956037, 2730485921, 2820302411,
   3259730800, 3345764771, 3516065817, 3600352804, 4094571909, 275423344,
   430227734, 506948616, 659060556, 883997877, 958139571, 1322822218,
   1537002063, 1747873779, 1955562222, 2024104815, 2227730452, 2361852424,
   2428436474, 2756734187, 3204031479, 3329325298]

/-- Working state of the compression function. -/
structure Hash8 where
  a : Nat
  b : Nat
  c : Nat
  d : Nat
  e : Nat
  f : Nat
  g : Nat
  h : Nat
deriving DecidableEq, Repr

/-- SHA-256 initial hash value of FIPS 180-4, in decimal. -/
def shaH0 : Hash8 :=
  ⟨1779033703, 3144134277, 1013904242, 2773480762,
   1359893119, 2600822924, 528734635, 1541459225⟩

/-- Append the padding and the 64-bit big-endian bit length. -/
def shaPad (msg : List Nat) : List Nat :=
  let L := msg.length
  let z := (120 - ((L + 1) % 64)) % 64
  let bits := (8 * L) % 18446744073709551616
  msg ++ [128] ++ List.replicate z 0 ++
    [bits / 72057594037927936 % 256, bits / 281474976710656 % 256,
     bits / 1099511627776 % 256, bits / 4294967296 % 256,
     bits / 16777216 % 256, bits / 65536 % 256, bits / 256 % 256, bits % 256]

/-- Split a byte list into 64-byte blocks; the fuel argument (an upper bound
    on the length) keeps the recursion structural. -/
def toBlocks : Nat → List Nat → List (List Nat)
  | 0, _ => []
  | _ + 1, [] => []
  | fuel + 1, l => l.take 64 :: toBlocks fuel (l.drop 64)

/-- Big-endian 4-byte groups to 32-bit words. -/
def bytesToWords : List Nat → List Nat
  | b0 :: b1 :: b2 :: b3 :: rest =>
    (((b0 * 256 + b1) * 256 + b2) * 256 + b3) :: bytesToWords rest
  | _ => []

/-- One message-schedule extension step, given the already produced words in
    reverse order. -/
def schedStep (rev : List Nat) : Nat :=
  w32 (shas1 (rev.getD 1 0) + rev.getD 6 0 + shas0 (rev.getD 14 0) + rev.getD 15 0)

/-- Extend the 16 block words to the 64 schedule words. -/
def buildSched : Nat → List Nat → List Nat
  | 0, rev => rev.reverse
  | k + 1, rev => buildSched k (schedStep rev :: rev)

/-- One SHA-256 round. -/
def compressStep (st : Hash8) (kw : Nat × Nat) : Hash8 :=
  let t1 := w32 (st.h + shaS1 st.e + shaCh st.e st.f st.g + kw.2 + kw.1)
  let t2 := w32 (shaS0 st.a + shaMaj st.a st.b st.c)
  ⟨w32 (t1 + t2), st.a, st.b, st.c, w32 (st.d + t1), st.e, st.f, st.g⟩

/-- Compress one 64-byte block into the running hash. -/
def compressBlock (h : Hash8) (block : List Nat) : Hash8 :=
  let ws := buildSched 48 (bytesToWords block).reverse
  let st := (ws.zip shaK).foldl compressStep h
  ⟨w32 (h.a + st.a), w32 (h.b + st.b), w32 (h.c + st.c), w32 (h.d + st.d),
   w32 (h.e + st.e), w32 (h.f + st.f), w32 (h.g + st.g), w32 (h.h + st.h)⟩

/-- The eight digest words of a byte message. -/
def sha256Words (msg : List Nat) : List Nat :=
  let padded := shaPad msg
  let fin := (toBlocks padded.length padded).foldl compressBlock shaH0
  [fin.a, fin.b, fin.c, fin.d, fin.e, fin.f, fin.g, fin.h]

/-- Lowercase hex digit characters. -/
def hexDigit : Nat → Char
  | 0 => '0' | 1 => '1' | 2 => '2' | 3 => '3' | 4 => '4'
  | 5 => '5' | 6 => '6' | 7 => '7' | 8 => '8' | 9 => '9'
  | 10 => 'a' | 11 => 'b' | 12 => 'c' | 13 => 'd' | 14 => 'e' | 15 => 'f'
  | _ => '0'

/-- Eight lowercase hex characters of one 32-bit word, most significant
    nibble first. -/
def toHex8 (n : Nat) : List Char :=
  [hexDigit (n / 268435456 % 16), hexDigit (n / 16777216 % 16),
   hexDigit (n / 1048576 % 16), hexDigit (n / 65536 % 16),
   hexDigit (n / 4096 % 16), hexDigit (n / 256 % 16),
   hexDigit (n / 16 % 16), hexDigit (n % 16)]

/-- hashlib.sha256(..).hexdigest(): 64 lowercase hex characters. -/
def sha256Hex (msg : List Nat) : String :=
  String.mk ((sha256Words msg).foldr (fun wrd acc => toHex8 wrd ++ acc) [])

/-- Self-test of the digest model against the standard test vector. -/
theorem sha256Hex_abc :
    sha256Hex (utf8 "abc") =
      "ba7816bf8f01cfea414140de5dae2223b00361a396177a9cb410ff61f20015ad" := by
  decide

/-! ## Datetime parsing

Model of services.py parse_lead_datetime. Django helper semantics
(django.utils.dateparse.parse_datetime / parse_date) are embedded from their
documented behaviour: a regex-shaped input with out-of-range components makes
the datetime constructor raise ValueError, which those helpers propagate; an
input that does not match the grammar yields None. The fromisoformat fast
path inside the Django helpers accepts the same ASCII numeric grammar on the
inputs this development evaluates. Instants are seconds in UTC counted from
the model epoch 0000-03-01; the configured application timezone
America/Sao_Paulo is the fixed offset UTC-3 (Brazil has no DST since 2019).
-/

def isLeapYear (y : Nat) : Bool :=
  (y % 4 = 0 && y % 100 ≠ 0) || y % 400 = 0

def daysInMonth (y m : Nat) : Nat :=
  if m = 2 then (if isLeapYear y then 29 else 28)
  else if m = 4 ∨ m = 6 ∨ m = 9 ∨ m = 11 then 30
  else 31

/-- Days from 0000-03-01 to the civil date y-m-d (valid for y ≥ 1). -/
def daysFromCivil (y m d : Nat) : Nat :=
  let y' := if m ≤ 2 then y - 1 else y
  let era := y' / 400
  let yoe := y' % 400
  let mp := (m + 9) % 12
  let doy := (153 * mp + 2) / 5 + d - 1
  let doe := yoe * 365 + yoe / 4 - yoe / 100 + doy
  era * 146097 + doe

/-- A naive (timezone-free) datetime as parsed components. -/
structure NaiveDT where
  y : Nat
  mo : Nat
  d : Nat
  h : Nat
  mi : Nat
  s : Nat
deriving DecidableEq, Repr

/-- The component validation performed by the datetime constructor;
    violating it raises ValueError. -/
def validDT (n : NaiveDT) : Prop :=
  1 ≤ n.y ∧ 1 ≤ n.mo ∧ n.mo ≤ 12 ∧ 1 ≤ n.d ∧ n.d ≤ daysInMonth n.y n.mo ∧
    n.h ≤ 23 ∧ n.mi ≤ 59 ∧ n.s ≤ 59

instance : DecidablePred validDT := fun n => by
  unfold validDT; infer_instance

/-- Wall-clock seconds of a naive datetime from the model epoch. -/
def wallSeconds (n : NaiveDT) : Int :=
  ((daysFromCivil n.y n.mo n.d * 86400 + n.h * 3600 + n.mi * 60 + n.s : Nat) : Int)

/-- settings.TIME_ZONE America/Sao_Paulo as a fixed offset in minutes. -/
def currentTzOffsetMinutes : Int := -180

/-- django.utils.timezone.make_aware in the configured timezone: the instant
    whose wall clock there shows the given naive components. -/
def makeAware (n : NaiveDT) : Int :=
  wallSeconds n - currentTzOffsetMinutes * 60

/-- Take at most hi leading ASCII digits. -/
def takeDigitsAux : Nat → List Char → (List Char × List Char)
  | 0, l => ([], l)
  | _ + 1, [] => ([], [])
  | hi + 1, c :: rest =>
    if c.isDigit then
      let (ds, r) := takeDigitsAux hi rest
      (c :: ds, r)
    else ([], c :: rest)

def digitsToNat (ds : List Char) : Nat :=
  ds.foldl (fun acc c => acc * 10 + (c.toNat - 48)) 0

/-- Greedy \d{lo,hi}: at least lo and at most hi leading digits. Greedy
    matching is exact here because in every pattern modelled the token after
    a digit run is a non-digit, so the regex engine never backtracks into a
    digit run. -/
def takeDigits (lo hi : Nat) (l : List Char) : Option (Nat × List Char) :=
  let (ds, rest) := takeDigitsAux hi l
  if lo ≤ ds.length then some (digitsToNat ds, rest) else none

def expectChar (c : Char) : List Char → Option (List Char)
  | x :: rest => if x = c then some rest else none
  | [] => none

/-- Optional fractional-seconds group of the Django datetime regex:
    [.,] followed by one to twelve digits (six captured, six discarded). -/
def skipFraction (l : List Char) : Option (List Char) :=
  match l with
  | c :: rest =>
    if c = '.' ∨ c = ',' then
      match takeDigits 1 12 rest with
      | some (_, r) => some r
      | none => none
    else some l
  | [] => some l

/-- Trailing timezone group of the Django datetime regex, then end of input:
    (Z | [+-]\d{2}(:?\d{2})?)? $. Returns the offset in signed minutes. -/
def parseDjangoTzEnd (l : List Char) : Option (Option Int) :=
  match l with
  | [] => some none
  | 'Z' :: rest => if rest.isEmpty then some (some 0) else none
  | c :: rest =>
    if c = '+' ∨ c = '-' then
      match takeDigits 2 2 rest with
      | none => none
      | some (hh, r1) =>
        let r2 := match r1 with
          | ':' :: r' => (':' : Char) :: r'
          | _ => r1
        let withMins :=
          match r2 with
          | ':' :: r' => takeDigits 2 2 r'
          | _ => takeDigits 2 2 r2
        match withMins with
        | some (mm, r3) =>
          if r3.isEmpty then
            some (some (if c = '-' then -(hh * 60 + mm : Int) else (hh * 60 + mm : Int)))
          else if r1.isEmpty then some (some (if c = '-' then -(hh * 60 : Int) else (hh * 60 : Int)))
          else none
        | none =>
          if r1.isEmpty then some (some (if c = '-' then -(hh * 60 : Int) else (hh * 60 : Int)))
          else none
    else none

/-- Anchored match of the Django datetime regex
    \d{4}-\d{1,2}-\d{1,2}[T ]\d{1,2}:\d{1,2}(:\d{1,2}([.,]\d{1,6}\d{0,6})?)?(tz)?$
    returning the components and the timezone offset in minutes. -/
def djangoDatetimeMatch (l : List Char) : Option (NaiveDT × Option Int) := do
  let (y, r1) ← takeDigits 4 4 l
  let r2 ← expectChar '-' r1
  let (mo, r3) ← takeDigits 1 2 r2
  let r4 ← expectChar '-' r3
  let (d, r5) ← takeDigits 1 2 r4
  let r6 ← match r5 with
    | 'T' :: r => some r
    | ' ' :: r => some r
    | _ => none
  let (h, r7) ← takeDigits 1 2 r6
  let r8 ← expectChar ':' r7
  let (mi, r9) ← takeDigits 1 2 r8
  let (s, r10) ← match r9 with
    | ':' :: r =>
      match takeDigits 1 2 r with
      | some (s, r') => do
        let r'' ← skipFraction r'
        pure (s, r'')
      | none => none
    | _ => some (0, r9)
  let tz ← parseDjangoTzEnd r10
  pure (⟨y, mo, d, h, mi, s⟩, tz)

/-- A fixed utc offset is constructible only when strictly below 24 hours. -/
def tzOffsetOk (tz : Option Int) : Bool :=
  match tz with
  | none => true
  | some off => off.natAbs < 1440

/-- django.utils.dateparse.parse_datetime: None when the input does not match
    the grammar; ValueError when it matches with out-of-range components or a
    fixed offset of 24 hours or more (raised by the datetime and timezone
    constructors and propagated by the helper). -/
def django_parse_datetime (s : String) : Except PyErr (Option (NaiveDT × Option Int)) :=
  match djangoDatetimeMatch s.data with
  | none => .ok none
  | some (n, tz) =>
    if validDT n ∧ tzOffsetOk tz = true then
      .ok (some (n, tz))
    else .error .valueError

/-- Anchored match of the Django date regex \d{4}-\d{1,2}-\d{1,2}$. -/
def djangoDateMatch (l : List Char) : Option (Nat × Nat × Nat) := do
  let (y, r1) ← takeDigits 4 4 l
  let r2 ← expectChar '-' r1
  let (mo, r3) ← takeDigits 1 2 r2
  let r4 ← expectChar '-' r3
  let (d, r5) ← takeDigits 1 2 r4
  if r5.isEmpty then pure (y, mo, d) else none

/-- django.utils.dateparse.parse_date with the same ValueError semantics. -/
def django_parse_date (s : String) : Except PyErr (Option (Nat × Nat × Nat)) :=
  match djangoDateMatch s.data with
  | none => .ok none
  | some (y, mo, d) =>
    if validDT ⟨y, mo, d, 0, 0, 0⟩ then .ok (some (y, mo, d)) else .error .valueError

/-- Result of the hand-written fallback regex of parse_lead_datetime:
    date and time components, optional seconds, optional UTC offset given as
    signed hours and unsigned extra minutes. -/
structure CustomM where
  y : Nat
  mo : Nat
  d : Nat
  h : Nat
  mi : Nat
  sec : Option Nat
  off : Option (Int × Nat)
deriving DecidableEq, Repr

/-- Case-insensitive match of the literal UTC after optional whitespace,
    then [+-]\d{1,2} and an optional (:?\d{2}) minutes group; the whole
    group is optional in the pattern, so failure just means absence. -/
def matchUtcOffset (l : List Char) : Option (Int × Nat) := do
  let r0 := l.dropWhile isPySpace
  let r1 ← match r0 with
    | c :: r => if c = 'U' ∨ c = 'u' then some r else none
    | [] => none
  let r2 ← match r1 with
    | c :: r => if c = 'T' ∨ c = 't' then some r else none
    | [] => none
  let r3 ← match r2 with
    | c :: r => if c = 'C' ∨ c = 'c' then some r else none
    | [] => none
  let (sign, r4) ← match r3 with
    | '+' :: r => some ((1 : Int), r)
    | '-' :: r => some ((-1 : Int), r)
    | _ => none
  let (hh, r5) ← takeDigits 1 2 r4
  let mins :=
    match r5 with
    | ':' :: r => (takeDigits 2 2 r).map Prod.fst
    | _ => (takeDigits 2 2 r5).map Prod.fst
  pure (sign * hh, mins.getD 0)

/-- Match of the fallback pattern
    (\d{4}-\d{2}-\d{2})[ T](\d{2}:\d{2}(:\d{2})?)(\s*UTC([+-]\d{1,2})(:?\d{2})?)?
    at the start of the list (re.IGNORECASE). -/
def matchCustomAt (l : List Char) : Option CustomM := do
  let (y, r1) ← takeDigits 4 4 l
  let r2 ← expectChar '-' r1
  let (mo, r3) ← takeDigits 2 2 r2
  let r4 ← expectChar '-' r3
  let (d, r5) ← takeDigits 2 2 r4
  let r6 ← match r5 with
    | 'T' :: r => some r
    | 't' :: r => some r
    | ' ' :: r => some r
    | _ => none
  let (h, r7) ← takeDigits 2 2 r6
  let r8 ← expectChar ':' r7
  let (mi, r9) ← takeDigits 2 2 r8
  let (sec, r10) :=
    match r9 with
    | ':' :: r =>
      match takeDigits 2 2 r with
      | some (s, r') => (some s, r')
      | none => (none, (':' : Char) :: r)
    | _ => (none, r9)
  pure ⟨y, mo, d, h, mi, sec, matchUtcOffset r10⟩

/-- re.search of the fallback pattern: leftmost match over all suffixes. -/
def customSearch : List Char → Option CustomM
  | [] => none
  | l@(_ :: rest) =>
    match matchCustomAt l with
    | some m => some m
    | none => customSearch rest

/-- The strptime branch of parse_lead_datetime: the first strptime call is
    guarded by try/except ValueError but the second call is not, so a matched
    date or time with out-of-range components raises; a valid one is
    interpreted in the annotated fixed UTC offset (which the timezone
    constructor bounds below 24 hours) or, absent one, made aware in the
    configured timezone. -/
def customBranch (m : CustomM) : Except PyErr Int :=
  let n : NaiveDT := ⟨m.y, m.mo, m.d, m.h, m.mi, m.sec.getD 0⟩
  if validDT n then
    match m.off with
    | some (hh, mm) =>
      let offMinutes : Int := hh * 60 + mm
      if offMinutes.natAbs ≥ 1440 then .error .valueError
      else .ok (wallSeconds n - offMinutes * 60)
    | none => .ok (makeAware n)
  else .error .valueError

/-- services.py parse_lead_datetime: strip; empty input is None; then the
    Django datetime parser, the hand-written fallback pattern, and the Django
    date parser in that order; a raise in any of them propagates. -/
def parse_lead_datetime (value : String) : Except PyErr (Option Int) :=
  let raw := pyStrip value
  if raw = "" then .ok none
  else
    match django_parse_datetime raw with
    | .error e => .error e
    | .ok (some (n, tzOff)) =>
      match tzOff with
      | some offMin => .ok (some (wallSeconds n - offMin * 60))
      | none => .ok (some (makeAware n))
    | .ok none =>
      match customSearch raw.data with
      | some m =>
        match customBranch m with
        | .ok t => .ok (some t)
        | .error e => .error e
      | none =>
        match djangoDateMatch raw.data with
        | some (y, mo, d) =>
          if validDT ⟨y, mo, d, 0, 0, 0⟩ then .ok (some (makeAware ⟨y, mo, d, 0, 0, 0⟩))
          else .error .valueError
        | none => .ok none

/-! ## Row normalization (services.py HEADER_ALIASES, EXPORT_COLUMNS,
normalize_row) -/

/-- services.py EXPORT_COLUMNS: the nine canonical fields and their display
    headers, in source order. -/
def EXPORT_COLUMNS : List (String × String) :=
  [("city", "Cidade"),
   ("target_region", "Regiao-alvo"),
   ("lead_created_at", "Horario de criacao do lead"),
   ("establishment_name", "Nome do estabelecimento"),
   ("representative_name", "Nome do representante 99"),
   ("contract_status", "Status do contrato"),
   ("representative_phone", "Telefone do representante do estabelecimento"),
   ("company_category", "Categoria da empresa"),
   ("address", "Endereco")]

/-- services.py HEADER_ALIASES as an association list in source order. -/
def HEADER_ALIASES : List (String × String) :=
  [("cidade", "city"),
   ("city", "city"),
   ("regiao alvo", "target_region"),
   ("regiao-alvo", "target_region"),
   ("target region", "target_region"),
   ("target_region", "target_region"),
   ("horario de criacao do lead", "lead_created_at"),
   ("horario criacao do lead", "lead_created_at"),
   ("lead created at", "lead_created_at"),
   ("lead_created_at", "lead_created_at"),
   ("nome do estabelecimento", "establishment_name"),
   ("establishment_name", "establishment_name"),
   ("nome do representante 99", "representative_name"),
   ("representative_name", "representative_name"),
   ("status do contrato", "contract_status"),
   ("contract_status", "contract_status"),
   ("telefone do representante do estabelecimento", "representative_phone"),
   ("representative_phone", "representative_phone"),
   ("categoria da empresa", "company_category"),
   ("company_category", "company_category"),
   ("endereco", "address"),
   ("address", "address"),
   ("source", "source")]

/-- HEADER_ALIASES.get on a normalized header. -/
def lookupAlias (k : String) : Option String :=
  (HEADER_ALIASES.find? (fun kv => kv.1 == k)).map (·.2)

/-- The normalized row dictionary built by normalize_row: the nine canonical
    fields (empty defaults, lead_created_at None), the source, and the
    derived representative_phone_norm. -/
structure Parsed where
  city : String := ""
  target_region : String := ""
  lead_created_at : Option Int := none
  establishment_name : String := ""
  representative_name : String := ""
  contract_status : String := ""
  representative_phone : String := ""
  company_category : String := ""
  address : String := ""
  source : String := "gattaran"
  representative_phone_norm : String := ""
deriving DecidableEq, Repr, Inhabited

/-- One iteration of the normalize_row loop body for a recognized header:
    lead_created_at goes through parse_lead_datetime (whose ValueError
    propagates), every other field through normalize_value. -/
def applyAlias (p : Parsed) (mapped : String) (value : String) : Except PyErr Parsed :=
  if mapped = "lead_created_at" then do
    let t ← parse_lead_datetime value
    pure { p with lead_created_at := t }
  else
    let v := normalize_value mapped value
    if mapped = "city" then pure { p with city := v }
    else if mapped = "target_region" then pure { p with target_region := v }
    else if mapped = "establishment_name" then pure { p with establishment_name := v }
    else if mapped = "representative_name" then pure { p with representative_name := v }
    else if mapped = "contract_status" then pure { p with contract_status := v }
    else if mapped = "representative_phone" then pure { p with representative_phone := v }
    else if mapped = "company_category" then pure { p with company_category := v }
    else if mapped = "address" then pure { p with address := v }
    else if mapped = "source" then pure { p with source := v }
    else pure p

/-- services.py normalize_row: map each recognized header through its alias,
    later occurrences overwriting earlier ones, then derive
    representative_phone_norm from the captured representative_phone. -/
def normalize_row (kvs : List (String × String)) (default_source : String) :
    Except PyErr Parsed := do
  let p ← kvs.foldlM (fun p kv =>
    match lookupAlias (normalize_header kv.1) with
    | none => pure p
    | some mapped => applyAlias p mapped kv.2) { source := default_source }
  pure { p with representative_phone_norm := normalize_phone p.representative_phone }

/-- Truthiness of any canonical field, in EXPORT_COLUMNS order: the
    `any(parsed.get(field) ...)` guard of upsert_rows. -/
def anyFieldPopulated (p : Parsed) : Bool :=
  p.city != "" || p.target_region != "" || p.lead_created_at.isSome ||
    p.establishment_name != "" || p.representative_name != "" ||
    p.contract_status != "" || p.representative_phone != "" ||
    p.company_category != "" || p.address != ""

/-! ## Identity key (services.py build_unique_key) -/

/-- "|".join of the key parts. -/
def joinBar : List String → String
  | [] => ""
  | [s] => s
  | s :: rest => s ++ "|" ++ joinBar rest

/-- services.py build_unique_key: SHA-256 hex digest of the joined normalized
    parts; the last stable part is the normalized phone, and when it is empty
    the normalized address and representative name are appended first. -/
def build_unique_key (p : Parsed) : String :=
  let phonePart := normalize_header p.representative_phone_norm
  let stable_parts := [normalize_header p.source, normalize_header p.city,
    normalize_header p.establishment_name, phonePart]
  let parts :=
    if phonePart = "" then
      stable_parts ++ [normalize_header p.address, normalize_header p.representative_name]
    else stable_parts
  sha256Hex (utf8 (joinBar parts))

/-! ## Record store (models.py MacroLead and the Django ORM state)

The store is a list of rows plus an id sequence and a logical clock standing
for timezone.now / auto_now timestamps; each committed write ticks the clock,
so last_seen_at values taken from it grow monotonically.
-/

/-- models.py MacroLead. -/
structure Lead where
  id : Nat
  source : String := "gattaran"
  city : String := ""
  target_region : String := ""
  lead_created_at : Option Int := none
  establishment_name : String := ""
  representative_name : String := ""
  contract_status : String := ""
  business_99_status : String := ""
  representative_phone : String := ""
  representative_phone_norm : String := ""
  is_blocked_number : Bool := false
  company_category : String := ""
  address : String := ""
  unique_key : String := ""
  first_seen_at : Nat := 0
  last_seen_at : Nat := 0
deriving DecidableEq, Repr, Inhabited

/-- The database state. -/
structure DB where
  leads : List Lead := []
  nextId : Nat := 1
  clock : Nat := 1
deriving DecidableEq, Repr, Inhabited

/-- MacroLead.objects.filter(unique_key=key).first(): unique_key carries a
    uniqueness constraint, so at most one row matches. -/
def findByKey (db : DB) (key : String) : Option Lead :=
  db.leads.find? (fun l => l.unique_key == key)

/-- Tier-2 filter: same source, case-insensitive city and establishment
    name, exact phone norm. -/
def tier2Matches (p : Parsed) (l : Lead) : Bool :=
  l.source == p.source && iexact l.city p.city &&
    iexact l.establishment_name p.establishment_name &&
    l.representative_phone_norm == p.representative_phone_norm

/-- Tier-3 filter: same source, case-insensitive city, establishment name
    and address. -/
def tier3Matches (p : Parsed) (l : Lead) : Bool :=
  l.source == p.source && iexact l.city p.city &&
    iexact l.establishment_name p.establishment_name &&
    iexact l.address p.address

/-- .order_by("-last_seen_at").first(): a candidate with maximal
    last_seen_at (the rows that tie are returned in an order the database
    does not specify; the model keeps the earliest stored one). -/
def mostRecent (ls : List Lead) : Option Lead :=
  ls.foldl (fun acc l =>
    match acc with
    | none => some l
    | some m => if m.last_seen_at < l.last_seen_at then some l else some m) none

/-- The match-resolution sequence of upsert_rows (services.py:179-202):
    unique-key lookup, then the phone tier, then, only when the incoming
    address is non-empty, the address tier. -/
def resolveMatch (db : DB) (p : Parsed) (key : String) : Option Lead :=
  match findByKey db key with
  | some l => some l
  | none =>
    match mostRecent (db.leads.filter (tier2Matches p)) with
    | some l => some l
    | none =>
      if p.address != "" then mostRecent (db.leads.filter (tier3Matches p))
      else none

/-- MacroLead.objects.create(unique_key=..., is_blocked_number=..., **defaults):
    business_99_status is not among the keyword arguments, so the new row
    carries the model default empty string; first_seen_at and last_seen_at
    come from the database clock. -/
def mkLead (id now : Nat) (p : Parsed) (key : String) (blocked : Bool) : Lead :=
  { id := id, source := p.source, city := p.city, target_region := p.target_region,
    lead_created_at := p.lead_created_at,
    establishment_name := p.establishment_name,
    representative_name := p.representative_name,
    contract_status := p.contract_status,
    business_99_status := "",
    representative_phone := p.representative_phone,
    representative_phone_norm := p.representative_phone_norm,
    is_blocked_number := blocked,
    company_category := p.company_category,
    address := p.address, unique_key := key,
    first_seen_at := now, last_seen_at := now }

/-! ## Upsert engine (services.py upsert_rows) and the block toggle view -/

/-- services.py:203-216, the create path: the block flag is inherited when
    any existing lead already carries the same non-empty phone norm with
    is_blocked_number set; the error branch is the database uniqueness
    constraint on unique_key, around which upsert_rows installs no handler,
    so it propagates (in this race-free sequential model the branch is
    unreachable because the tier-1 lookup just missed). -/
def createLead (db : DB) (p : Parsed) (key : String) : Except PyErr DB :=
  let blocked :=
    p.representative_phone_norm != "" &&
      db.leads.any (fun o =>
        o.representative_phone_norm == p.representative_phone_norm && o.is_blocked_number)
  if db.leads.any (fun o => o.unique_key == key) then
    .error .integrityError
  else
    .ok { leads := db.leads ++ [mkLead db.nextId db.clock p key blocked],
          nextId := db.nextId + 1, clock := db.clock + 1 }

/-- The field assignment loop of the update path (services.py:222-230): the
    computed unique_key and every key of the defaults dict, which are exactly
    the Parsed fields; business_99_status, is_blocked_number and the seen
    timestamps are not among them. -/
def setFields (l : Lead) (p : Parsed) (key : String) : Lead :=
  { l with
    unique_key := key
    city := p.city
    target_region := p.target_region
    lead_created_at := p.lead_created_at
    establishment_name := p.establishment_name
    representative_name := p.representative_name
    contract_status := p.contract_status
    representative_phone := p.representative_phone
    company_category := p.company_category
    address := p.address
    source := p.source
    representative_phone_norm := p.representative_phone_norm }

/-- f-string id padding: at least eight digits, zero filled. -/
def pad8 (id : Nat) : List Char :=
  let ds := Nat.toDigits 10 id
  List.replicate (8 - ds.length) '0' ++ ds

/-- The fallback key of the IntegrityError handler on save
    (services.py:247). -/
def suffixKey (key : String) (id : Nat) : String :=
  String.mk ((key.data.take 56 ++ pad8 id).take 64)

/-- Commit a modified row: every other row keeps its state, and the clock
    ticks. -/
def saveReplace (db : DB) (id : Nat) (l' : Lead) : DB :=
  { db with
    leads := db.leads.map (fun o => if o.id = id then l' else o)
    clock := db.clock + 1 }

/-- services.py:222-252, the update path: assign the computed key and the
    normalized fields, flip the block flag on when the (possibly updated)
    phone norm is non-empty, the row itself is unflagged and some other row
    with the same phone norm is flagged, bump last_seen_at, save; a
    uniqueness violation on save is recovered by suffixing the key with the
    row id when the key was among the changed fields, and propagates
    otherwise. -/
def updateLead (db : DB) (lead : Lead) (p : Parsed) (key : String) : Except PyErr DB :=
  let ukChanged := lead.unique_key != key
  let l1 := setFields lead p key
  let l2 :=
    if l1.representative_phone_norm != "" && !l1.is_blocked_number &&
        db.leads.any (fun o =>
          o.id != lead.id &&
            o.representative_phone_norm == l1.representative_phone_norm &&
            o.is_blocked_number) then
      { l1 with is_blocked_number := true }
    else l1
  let l3 := { l2 with last_seen_at := db.clock }
  if db.leads.any (fun o => o.id != lead.id && o.unique_key == l3.unique_key) then
    if ukChanged then
      .ok (saveReplace db lead.id { l3 with unique_key := suffixKey key lead.id })
    else .error .integrityError
  else .ok (saveReplace db lead.id l3)

/-- One element of the iterable given to upsert_rows: either a mapping or
    (the isinstance check failing) anything else. -/
inductive RawItem where
  | mapping (kvs : List (String × String))
  | notMapping
deriving DecidableEq, Repr

/-- How one row was accounted. -/
inductive RowOutcome where
  | created
  | updated
  | ignored
  | invalid
deriving DecidableEq, Repr

/-- The result counters of upsert_rows. -/
structure Counters where
  created : Nat := 0
  updated : Nat := 0
  ignored : Nat := 0
  invalid : Nat := 0
deriving DecidableEq, Repr

def Counters.processed (c : Counters) : Nat :=
  c.created + c.updated + c.ignored + c.invalid

def Counters.bump (c : Counters) : RowOutcome → Counters
  | .created => { c with created := c.created + 1 }
  | .updated => { c with updated := c.updated + 1 }
  | .ignored => { c with ignored := c.ignored + 1 }
  | .invalid => { c with invalid := c.invalid + 1 }

/-- The body of the upsert_rows loop for one row. -/
def upsert_row (default_source : String) (db : DB) (item : RawItem) :
    Except PyErr (DB × RowOutcome) :=
  match item with
  | .notMapping => .ok (db, .invalid)
  | .mapping kvs => do
    let p ← normalize_row kvs default_source
    if !anyFieldPopulated p then pure (db, .ignored)
    else
      let key := build_unique_key p
      match resolveMatch db p key with
      | some lead => do
        let db' ← updateLead db lead p key
        pure (db', .updated)
      | none => do
        let db' ← createLead db p key
        pure (db', .created)

/-- services.py upsert_rows over a list of rows against a store state. -/
def upsert_rows (rows : List RawItem) (default_source : String) (db : DB) :
    Except PyErr (DB × Counters) :=
  rows.foldlM
    (fun acc item => do
      let (db', oc) ← upsert_row default_source acc.1 item
      pure (db', acc.2.bump oc))
    (db, {})

/-- views.py macro_toggle_phone_block: find the lead (404 modelled as none),
    strip its phone norm, and bulk-update either every lead with exactly that
    phone norm (when non-empty) or just the lead itself, setting the flag and
    last_seen_at. -/
def macro_toggle_phone_block (db : DB) (lead_id : Nat) (blocked : Bool) : Option DB :=
  match db.leads.find? (fun l => l.id == lead_id) with
  | none => none
  | some lead =>
    let phone_norm := pyStrip lead.representative_phone_norm
    let affects : Lead → Bool :=
      if phone_norm != "" then fun l => l.representative_phone_norm == phone_norm
      else fun l => l.id == lead.id
    some { db with
      leads := db.leads.map fun l =>
        if affects l then { l with is_blocked_number := blocked, last_seen_at := db.clock }
        else l
      clock := db.clock + 1 }

/-- upsert_rows on one mapping row, instrumented with the concurrent
    interleaving of spec section 5: after the three match-resolution queries
    all miss, a concurrent writer persists its own row before the create call
    runs. The control flow is that of services.py:166-220: the create call
    sits in no try/except, so the uniqueness violation it raises when the
    concurrent row holds the same unique_key propagates out of upsert_rows. -/
def upsert_row_create_race (default_source : String) (db : DB)
    (kvs : List (String × String)) (concurrent : Lead) :
    Except PyErr (DB × RowOutcome) := do
  let p ← normalize_row kvs default_source
  if !anyFieldPopulated p then pure (db, .ignored)
  else
    let key := build_unique_key p
    match resolveMatch db p key with
    | some lead => do
      let db' ← updateLead db lead p key
      pure (db', .updated)
    | none => do
      let db2 : DB := { db with leads := db.leads ++ [concurrent] }
      let db' ← createLead db2 p key
      pure (db', .created)

/-! ## Concrete scenarios

Inputs taken from the repository test suite (macros/tests.py) and from the
ingestion paths, used by the claim theorems below.
-/

/-- The row of test_upsert_recovers_when_create_hits_unique_race. -/
def c1row : List (String × String) :=
  [("Cidade", "Sao Paulo"), ("Nome do estabelecimento", "Loja Corrida"),
   ("Telefone do representante do estabelecimento", "11999990000"),
   ("Status do contrato", "Ativo")]

/-- The normalized form of c1row. -/
def c1parsed : Parsed :=
  match normalize_row c1row "api" with
  | .ok p => p
  | .error _ => default

/-- The row as persisted by the concurrent writer: same normalized content
    and the same unique_key. -/
def c1concurrent : Lead :=
  mkLead 77 1 c1parsed (build_unique_key c1parsed) false

/-- The row of test_upsert_trims_oversized_values: a 400-character city,
    establishment name and category, a 150-character contract status and an
    80-digit phone. -/
def c2row : RawItem :=
  .mapping
    [("Cidade", String.mk (List.replicate 400 'S')),
     ("Nome do estabelecimento", String.mk (List.replicate 400 'L')),
     ("Status do contrato", String.mk (List.replicate 150 'A')),
     ("Telefone do representante do estabelecimento", String.mk (List.replicate 80 '9')),
     ("Categoria da empresa", String.mk (List.replicate 400 'C')),
     ("Endereco", "Rua X")]

/-- C1: the spec says a uniqueness violation raised by the create call is
    recovered by falling back to an update with created=0, updated=1, and
    test_upsert_recovers_when_create_hits_unique_race asserts exactly that;
    but the create call of upsert_rows sits in no try/except, so in the model
    of that interleaving the IntegrityError propagates out of upsert_rows
    instead of being converted into an update. -/
theorem c1_create_race_raises_instead_of_updating :
    upsert_row_create_race "api" {} c1row c1concurrent = .error .integrityError := by
  decide

/-- C2: the claim says overlength string fields are truncated to their
    column maxima (city 255, establishment_name 255, company_category 255,
    contract_status 100, representative_phone 50) when stored; the code has
    no truncation anywhere on the path (normalize_value keeps the full text
    and the sqlite backend stores it verbatim), so the stored lengths are the
    input lengths 400/400/150/80/400, exactly what
    test_upsert_trims_oversized_values rejects. -/
theorem c2_overlength_values_stored_untruncated :
    (upsert_rows [c2row] "api" {}).map (fun r =>
      (r.2.created, r.1.leads.map fun l =>
        [l.city.length, l.establishment_name.length, l.contract_status.length,
         l.representative_phone.length, l.company_category.length]))
      = .ok (1, [[400, 400, 150, 80, 400]]) := by
  decide

/-- A stored lead blocked-group scenario: lead 1 in Rio with phone norm
    5521999990000, matched later by address. -/
def c3leadA : Lead :=
  { id := 1, source := "api", city := "Rio", target_region := "R1",
    establishment_name := "Loja A", representative_name := "Ana",
    contract_status := "Ativo", representative_phone := "21999990000",
    representative_phone_norm := "5521999990000", company_category := "Brasileira",
    address := "Rua 1", unique_key := "block-1", first_seen_at := 1, last_seen_at := 1 }

/-- Lead 2 in Niteroi with phone norm 5511988887777, never blocked. -/
def c3leadB : Lead :=
  { id := 2, source := "api", city := "Niteroi", target_region := "R2",
    establishment_name := "Loja B", representative_name := "Bia",
    contract_status := "Ativo", representative_phone := "11988887777",
    representative_phone_norm := "5511988887777", company_category := "Pizza",
    address := "Rua 2", unique_key := "block-2", first_seen_at := 2, last_seen_at := 2 }

def c3db : DB := { leads := [c3leadA, c3leadB], nextId := 3, clock := 3 }

/-- A re-scrape of lead 1 carrying a corrected phone number equal to lead 2's:
    it misses the key and phone tiers and matches lead 1 through the address
    tier. -/
def c3row : RawItem :=
  .mapping
    [("Cidade", "Rio"), ("Nome do estabelecimento", "Loja A"),
     ("Telefone do representante do estabelecimento", "11988887777"),
     ("Endereco", "Rua 1")]

/-- C3, counterexample: after blocking lead 1 (a completed block operation,
    leaving every group uniform), one upsert_rows call that updates lead 1
    through the address tier rewrites its phone norm to lead 2's group; the
    update path only ever flips an unflagged row on, never a flagged row off,
    so the store ends with two leads sharing the non-empty phone norm
    5511988887777 and different is_blocked_number — upsert_rows does not
    preserve the claimed equality. -/
theorem c3_upsert_breaks_block_equality :
    ((macro_toggle_phone_block c3db 1 true).bind fun db1 =>
      (upsert_rows [c3row] "api" db1).toOption).map (fun r =>
        r.1.leads.map fun l => (l.representative_phone_norm, l.is_blocked_number))
      = some [("5511988887777", true), ("5511988887777", false)] := by
  decide

/-- All stored leads whose phone norm is non-empty after stripping carry one
    flag per phone-norm group. -/
def phoneBlockUniform (db : DB) : Prop :=
  ∀ l1 ∈ db.leads, ∀ l2 ∈ db.leads,
    pyStrip l1.representative_phone_norm ≠ "" →
    l1.representative_phone_norm = l2.representative_phone_norm →
    l1.is_blocked_number = l2.is_blocked_number

/-- Field projections of the bulk-update image used by the toggle view. -/
theorem ite_lead_phone (c : Prop) [Decidable c] (a : Lead) (b : Bool) (t : Nat) :
    (if c then { a with is_blocked_number := b, last_seen_at := t }
     else a).representative_phone_norm = a.representative_phone_norm := by
  by_cases h : c <;> simp [h]

/-- The flag of the bulk-update image. -/
theorem ite_lead_flag (c : Prop) [Decidable c] (a : Lead) (b : Bool) (t : Nat) :
    (if c then { a with is_blocked_number := b, last_seen_at := t }
     else a).is_blocked_number = if c then b else a.is_blocked_number := by
  by_cases h : c <;> simp [h]

/-- C3, amended: flagging or unflagging a lead through
    macro_toggle_phone_block sets the flag of every stored lead whose phone
    norm equals the toggled lead's stripped non-empty phone norm, and the
    toggle preserves per-group flag equality across the whole store (row ids
    being unique); upsert_rows, however, does not always preserve that
    equality (see the counterexample). -/
theorem c3_toggle_propagates_and_preserves_uniformity
    (db : DB) (id : Nat) (b : Bool) (db' : DB) (lead : Lead)
    (hids : (db.leads.map (·.id)).Nodup)
    (hfind : db.leads.find? (fun l => l.id == id) = some lead)
    (htog : macro_toggle_phone_block db id b = some db') :
    (∀ l ∈ db'.leads,
      l.representative_phone_norm = pyStrip lead.representative_phone_norm →
      pyStrip lead.representative_phone_norm ≠ "" →
      l.is_blocked_number = b) ∧
    (phoneBlockUniform db → phoneBlockUniform db') := by
  unfold macro_toggle_phone_block at htog
  rw [hfind] at htog
  simp only [Option.some.injEq] at htog
  subst htog
  constructor
  · intro l hl hphone hne
    have hb : (pyStrip lead.representative_phone_norm != "") = true := by
      simpa using hne
    simp only [List.mem_map] at hl
    obtain ⟨l0, hl0, rfl⟩ := hl
    simp only [ite_lead_phone] at hphone
    simp only [ite_lead_flag, hb]
    simp [hphone]
  · intro hu l1 h1 l2 h2 hne hphones
    simp only [List.mem_map] at h1 h2
    obtain ⟨a1, ha1, rfl⟩ := h1
    obtain ⟨a2, ha2, rfl⟩ := h2
    simp only [ite_lead_phone] at hne hphones
    simp only [ite_lead_flag]
    by_cases hb : (pyStrip lead.representative_phone_norm != "") = true
    · simp only [hb, if_true, ite_true, ite_false, beq_iff_eq]
      by_cases g1 : a1.representative_phone_norm = pyStrip lead.representative_phone_norm
      · by_cases g2 : a2.representative_phone_norm = pyStrip lead.representative_phone_norm
        · simp [g1, g2]
        · rw [hphones] at g1
          exact absurd g1 g2
      · by_cases g2 : a2.representative_phone_norm = pyStrip lead.representative_phone_norm
        · rw [hphones] at g1
          exact absurd g2 g1
        · simp [g1, g2]
          exact hu a1 ha1 a2 ha2 hne hphones
    · have hleadmem : lead ∈ db.leads := List.mem_of_find?_eq_some hfind
      have hempty : pyStrip lead.representative_phone_norm = "" := by
        simpa using hb
      have hinj := List.inj_on_of_nodup_map hids
      simp only [hb, if_true, if_false, ite_true, ite_false, beq_iff_eq]
      by_cases g1 : a1.id = lead.id
      · have ha1lead : a1 = lead := hinj ha1 hleadmem g1
        subst ha1lead
        exact absurd hempty hne
      · by_cases g2 : a2.id = lead.id
        · have ha2lead : a2 = lead := hinj ha2 hleadmem g2
          subst ha2lead
          rw [hphones] at hne
          exact absurd hempty hne
        · simp [g1, g2]
          exact hu a1 ha1 a2 ha2 hne hphones

/-- A one-lead store used to instantiate the toggle theorem. -/
def c3wdb : DB :=
  { leads := [{ id := 1, representative_phone_norm := "5511999990000",
                unique_key := "w-1" }], nextId := 2, clock := 2 }

/-- The toggle theorem applied at a concrete store, with every hypothesis
    discharged by evaluation. -/
theorem c3_toggle_witness :
    (∀ l ∈ ((macro_toggle_phone_block c3wdb 1 true).getD c3wdb).leads,
      l.representative_phone_norm =
        pyStrip (Lead.representative_phone_norm
          { id := 1, representative_phone_norm := "5511999990000", unique_key := "w-1" }) →
      pyStrip (Lead.representative_phone_norm
          { id := 1, representative_phone_norm := "5511999990000", unique_key := "w-1" }) ≠ "" →
      l.is_blocked_number = true) ∧
    (phoneBlockUniform c3wdb →
      phoneBlockUniform ((macro_toggle_phone_block c3wdb 1 true).getD c3wdb)) :=
  c3_toggle_propagates_and_preserves_uniformity c3wdb 1 true
    ((macro_toggle_phone_block c3wdb 1 true).getD c3wdb)
    { id := 1, representative_phone_norm := "5511999990000", unique_key := "w-1" }
    (by decide) (by decide) (by decide)

/-! ## Claim C5: shape of build_unique_key -/

/-- The sixteen lowercase hex characters. -/
def hexChars : List Char := "0123456789abcdef".data

theorem hexDigit_mem (n : Nat) : hexDigit n ∈ hexChars := by
  match n with
  | 0 | 1 | 2 | 3 | 4 | 5 | 6 | 7 | 8 | 9 | 10 | 11 | 12 | 13 | 14 | 15 => decide
  | n + 16 =>
    have h : hexDigit (n + 16) = '0' := rfl
    rw [h]; decide

theorem hexDigit_contains (n : Nat) : hexChars.contains (hexDigit n) = true :=
  List.elem_eq_true_of_mem (hexDigit_mem n)

/-- The digest rendering always has 64 characters: eight 32-bit words of
    eight hex characters each. -/
theorem sha256Hex_length (msg : List Nat) : (sha256Hex msg).length = 64 := rfl

/-- Every character of the digest rendering is a lowercase hex character. -/
theorem sha256Hex_all_hex (msg : List Nat) :
    ((sha256Hex msg).data.all fun c => hexChars.contains c) = true := by
  simp only [sha256Hex, sha256Words, toHex8]
  simp [List.all_cons, hexDigit_mem]

/-- The key parts as the spec words them: the four normalized stable parts
    (source, city, establishment name, phone norm), extended with the
    normalized address and representative name exactly when the phone
    component is empty. -/
def specKeyParts (p : Parsed) : List String :=
  [normalize_header p.source, normalize_header p.city,
   normalize_header p.establishment_name,
   normalize_header p.representative_phone_norm] ++
    (if normalize_header p.representative_phone_norm = "" then
      [normalize_header p.address, normalize_header p.representative_name]
    else [])

/-- C5: build_unique_key is the lowercase-hex SHA-256 digest of the
    separator-joined normalized parts, whose tail is extended with the
    normalized address and representative name exactly when the normalized
    phone component is empty; the rendering always has 64 hex characters,
    and the key is a pure function of the parsed row, hence deterministic. -/
theorem c5_build_unique_key_is_sha256_of_spec_parts (p : Parsed) :
    build_unique_key p = sha256Hex (utf8 (joinBar (specKeyParts p))) ∧
    (build_unique_key p).length = 64 ∧
    ((build_unique_key p).data.all fun c => hexChars.contains c) = true ∧
    ∀ q : Parsed, p = q → build_unique_key p = build_unique_key q := by
  refine ⟨?_, ?_, ?_, ?_⟩
  · by_cases h : normalize_header p.representative_phone_norm = "" <;>
      simp [build_unique_key, specKeyParts, h]
  · exact sha256Hex_length _
  · by_cases h : normalize_header p.representative_phone_norm = "" <;>
      simp only [build_unique_key, h] <;> exact sha256Hex_all_hex _
  · intro q h
    rw [h]

/-- The key theorem applied at the default parsed row, its equality
    hypothesis discharged by rfl. -/
theorem c5_witness :
    build_unique_key {} = sha256Hex (utf8 (joinBar (specKeyParts {}))) ∧
    (build_unique_key {}).length = 64 ∧
    ((build_unique_key {}).data.all fun c => hexChars.contains c) = true ∧
    build_unique_key {} = build_unique_key {} :=
  ⟨(c5_build_unique_key_is_sha256_of_spec_parts {}).1,
   (c5_build_unique_key_is_sha256_of_spec_parts {}).2.1,
   (c5_build_unique_key_is_sha256_of_spec_parts {}).2.2.1,
   (c5_build_unique_key_is_sha256_of_spec_parts {}).2.2.2 {} rfl⟩

/-! ## Claim C7: normalize_phone -/

/-- Phone canonicalization as the spec words it: strip every non-digit
    character; if the digits start with 55 and number more than 11, keep them
    unchanged; otherwise if exactly 10 or 11 digits remain, put 55 in front;
    otherwise return the raw digit string unchanged. -/
def normalize_phone_spec (value : String) : String :=
  let digits := String.mk (value.data.filter Char.isDigit)
  if "55".data.isPrefixOf digits.data ∧ digits.length > 11 then digits
  else if digits.length = 10 ∨ digits.length = 11 then "55" ++ digits
  else digits

/-- C7: the implementation agrees with the spec wording on every input, and
    its output always consists of digit characters only (the kept digits,
    possibly behind the 55 country code). -/
theorem c7_normalize_phone_matches_spec :
    (∀ v : String, normalize_phone v = normalize_phone_spec v) ∧
    (∀ v : String, ((normalize_phone v).data.all Char.isDigit) = true) := by
  constructor
  · intro v
    rfl
  · intro v
    have hd : (v.data.filter Char.isDigit).all Char.isDigit = true := by
      rw [List.all_eq_true]
      intro c hc
      exact (List.mem_filter.1 hc).2
    unfold normalize_phone
    dsimp only
    split
    · exact hd
    · split
      · have h2 : ("55" ++ String.mk (v.data.filter Char.isDigit)).data
            = '5' :: '5' :: v.data.filter Char.isDigit := by
          rw [String.data_append]
          rfl
        rw [h2]
        simp only [List.all_cons, hd]
        decide
      · exact hd

/-! ## Claim C8: parse_lead_datetime -/

theorem takeDigitsAux_no_digits (hi : Nat) (l : List Char)
    (h : ∀ c ∈ l, c.isDigit = false) : ∃ r, takeDigitsAux hi l = ([], r) := by
  cases l with
  | nil => cases hi with
    | zero => exact ⟨[], rfl⟩
    | succ k => exact ⟨[], rfl⟩
  | cons c rest =>
    cases hi with
    | zero => exact ⟨c :: rest, rfl⟩
    | succ k =>
      refine ⟨c :: rest, ?_⟩
      have hc : c.isDigit = false := h c (List.mem_cons_self c rest)
      simp [takeDigitsAux, hc]

theorem takeDigits_none (l : List Char) (h : ∀ c ∈ l, c.isDigit = false)
    (lo hi : Nat) (hlo : 1 ≤ lo) : takeDigits lo hi l = none := by
  obtain ⟨r, hr⟩ := takeDigitsAux_no_digits hi l h
  simp only [takeDigits, hr]
  have hlen : ¬ lo ≤ ([] : List Char).length := by simp; omega
  simp [hlen]
  omega

theorem djangoDatetimeMatch_none (l : List Char) (h : ∀ c ∈ l, c.isDigit = false) :
    djangoDatetimeMatch l = none := by
  unfold djangoDatetimeMatch
  rw [takeDigits_none l h 4 4 (by omega)]
  rfl

theorem djangoDateMatch_none (l : List Char) (h : ∀ c ∈ l, c.isDigit = false) :
    djangoDateMatch l = none := by
  unfold djangoDateMatch
  rw [takeDigits_none l h 4 4 (by omega)]
  rfl

theorem matchCustomAt_none (l : List Char) (h : ∀ c ∈ l, c.isDigit = false) :
    matchCustomAt l = none := by
  unfold matchCustomAt
  rw [takeDigits_none l h 4 4 (by omega)]
  rfl

theorem customSearch_none (l : List Char) :
    (∀ c ∈ l, c.isDigit = false) → customSearch l = none := by
  induction l with
  | nil => intro _; rfl
  | cons c rest ih =>
    intro h
    have h1 : matchCustomAt (c :: rest) = none := matchCustomAt_none _ h
    unfold customSearch
    rw [h1]
    exact ih fun x hx => h x (List.mem_cons_of_mem _ hx)

theorem mem_pyStripList {c : Char} {l : List Char} (h : c ∈ pyStripList l) : c ∈ l := by
  unfold pyStripList at h
  rw [List.mem_reverse] at h
  have h2 := (List.dropWhile_sublist _).mem h
  rw [List.mem_reverse] at h2
  exact (List.dropWhile_sublist _).mem h2

/-- C8, counterexample: a well-formatted datetime whose components are out of
    range (February the 30th) matches the Django datetime grammar, so the
    datetime constructor inside django.utils.dateparse.parse_datetime raises
    ValueError, which parse_lead_datetime propagates instead of returning
    null. -/
theorem c8_out_of_range_date_raises :
    parse_lead_datetime "2026-02-30 13:45:20" = .error .valueError := by
  decide

/-- C8, amended: parse_lead_datetime returns null without raising for input
    matching none of the accepted grammars (in particular any input with no
    decimal digit at all), and the documented UTC-offset format parses to a
    non-null instant; but input that matches a grammar with out-of-range
    components raises ValueError (see the counterexample). -/
theorem c8_unmatched_input_yields_null :
    (∀ s : String, (s.data.all fun c => !c.isDigit) = true →
      parse_lead_datetime s = .ok none) ∧
    (∃ t : Int, parse_lead_datetime "2026-02-02 13:45:20 UTC-3" = .ok (some t)) := by
  constructor
  · intro s hs
    have hnd : ∀ c ∈ s.data, c.isDigit = false := by
      intro c hc
      have := List.all_eq_true.1 hs c hc
      simpa using this
    unfold parse_lead_datetime
    by_cases hraw : pyStrip s = ""
    · simp [hraw]
    · rw [if_neg hraw]
      have hnd2 : ∀ c ∈ (pyStrip s).data, c.isDigit = false := fun c hc =>
        hnd c (mem_pyStripList hc)
      have h1 : django_parse_datetime (pyStrip s) = .ok none := by
        unfold django_parse_datetime
        rw [djangoDatetimeMatch_none _ hnd2]
      rw [h1, customSearch_none _ hnd2, djangoDateMatch_none _ hnd2]
  · exact ⟨63932085920, by decide⟩

/-- The null-on-no-format theorem applied at a concrete digit-free input. -/
theorem c8_unmatched_witness : parse_lead_datetime "sem data" = .ok none :=
  c8_unmatched_input_yields_null.1 "sem data" (by decide)

/-! ## Claim C9: data-quality absorption -/

/-- Bind of a successful Except computation. -/
theorem except_bind_ok {ε α β : Type} (a : α) (f : α → Except ε β) :
    (Except.ok a >>= f) = f a := rfl

/-- C9, counterexample: not every per-row data-quality problem is absorbed —
    a mapping row whose lead creation time is well-formatted but out of range
    makes normalize_row raise ValueError out of upsert_rows before the row
    can be counted, even though not a single canonical field would have been
    populated had the value parsed to null. -/
theorem c9_bad_datetime_row_raises :
    upsert_rows [.mapping [("Horario de criacao do lead", "2026-02-30 13:45:20")]]
      "api" {} = .error .valueError := by
  decide

/-- C9, amended: a non-mapping row increments invalid and a mapping row whose
    values normalize without raising and populate no canonical field
    increments ignored, in both cases leaving the store untouched; but a row
    whose lead_created_at value matches a date grammar with out-of-range
    components raises out of upsert_rows (see the counterexample). -/
theorem c9_invalid_and_ignored_rows_counted_without_writes (db : DB) (ds : String) :
    (upsert_rows [.notMapping] ds db = .ok (db, { invalid := 1 })) ∧
    (∀ kvs p, normalize_row kvs ds = .ok p → anyFieldPopulated p = false →
      upsert_rows [.mapping kvs] ds db = .ok (db, { ignored := 1 })) := by
  constructor
  · rfl
  · intro kvs p hn hp
    simp only [upsert_rows, List.foldlM, upsert_row, hn, except_bind_ok, hp]
    rfl

/-- The counting theorem applied at a concrete store and rows, hypotheses
    discharged by evaluation. -/
theorem c9_witness :
    upsert_rows [.notMapping] "api" {} = .ok ({}, { invalid := 1 }) ∧
    upsert_rows [.mapping [("cabecalho desconhecido", "x")]] "api" {}
      = .ok ({}, { ignored := 1 }) :=
  ⟨(c9_invalid_and_ignored_rows_counted_without_writes {} "api").1,
   (c9_invalid_and_ignored_rows_counted_without_writes {} "api").2
     [("cabecalho desconhecido", "x")] { source := "api" } (by decide) (by decide)⟩

/-! ## Shared query lemmas -/

/-- The fold step of mostRecent. -/
def mrPick (acc : Option Lead) (l : Lead) : Option Lead :=
  match acc with
  | none => some l
  | some m => if m.last_seen_at < l.last_seen_at then some l else some m

theorem mostRecent_eq_foldl (ls : List Lead) : mostRecent ls = ls.foldl mrPick none := rfl

theorem foldl_mrPick_some (ls : List Lead) :
    ∀ (acc : Option Lead) (m : Lead), ls.foldl mrPick acc = some m →
      acc = some m ∨ m ∈ ls := by
  induction ls with
  | nil =>
    intro acc m h
    exact .inl h
  | cons a t ih =>
    intro acc m h
    rcases ih (mrPick acc a) m h with hpick | hmem
    · cases acc with
      | none =>
        simp only [mrPick] at hpick
        cases hpick
        exact .inr (List.mem_cons_self a t)
      | some b =>
        simp only [mrPick] at hpick
        by_cases hlt : b.last_seen_at < a.last_seen_at
        · rw [if_pos hlt] at hpick
          cases hpick
          exact .inr (List.mem_cons_self a t)
        · rw [if_neg hlt] at hpick
          exact .inl hpick
    · exact .inr (List.mem_cons_of_mem _ hmem)

theorem foldl_mrPick_maximal (ls : List Lead) :
    ∀ (acc : Option Lead) (m : Lead), ls.foldl mrPick acc = some m →
      (∀ b, acc = some b → b.last_seen_at ≤ m.last_seen_at) ∧
      (∀ o ∈ ls, o.last_seen_at ≤ m.last_seen_at) := by
  induction ls with
  | nil =>
    intro acc m h
    have hm : acc = some m := h
    refine ⟨fun b hb => ?_, by simp⟩
    rw [hm] at hb
    cases hb
    exact le_refl _
  | cons a t ih =>
    intro acc m h
    obtain ⟨hacc, hmem⟩ := ih (mrPick acc a) m h
    have ha : a.last_seen_at ≤ m.last_seen_at := by
      cases acc with
      | none => exact hacc a (by simp [mrPick])
      | some b =>
        by_cases hlt : b.last_seen_at < a.last_seen_at
        · exact hacc a (by simp [mrPick, hlt])
        · exact le_trans (le_of_not_lt hlt) (hacc b (by simp [mrPick, hlt]))
    refine ⟨fun b hb => ?_, fun o ho => ?_⟩
    · cases acc with
      | none => cases hb
      | some b0 =>
        have hbb : b0 = b := by injection hb
        subst hbb
        by_cases hlt : b0.last_seen_at < a.last_seen_at
        · exact le_trans (le_of_lt hlt) ha
        · exact hacc b0 (by simp [mrPick, hlt])
    · rcases List.mem_cons.1 ho with rfl | ho'
      · exact ha
      · exact hmem o ho'

theorem mostRecent_mem (ls : List Lead) (m : Lead) (h : mostRecent ls = some m) :
    m ∈ ls := by
  rcases foldl_mrPick_some ls none m h with hacc | hmem
  · cases hacc
  · exact hmem

theorem mostRecent_maximal (ls : List Lead) (m : Lead) (h : mostRecent ls = some m) :
    ∀ o ∈ ls, o.last_seen_at ≤ m.last_seen_at :=
  (foldl_mrPick_maximal ls none m h).2

/-- A resolved match is a stored row. -/
theorem resolveMatch_mem (db : DB) (p : Parsed) (key : String) (lead : Lead)
    (h : resolveMatch db p key = some lead) : lead ∈ db.leads := by
  unfold resolveMatch at h
  cases h1 : findByKey db key with
  | some l =>
    rw [h1] at h
    cases h
    exact List.mem_of_find?_eq_some h1
  | none =>
    rw [h1] at h
    cases h2 : mostRecent (db.leads.filter (tier2Matches p)) with
    | some l =>
      rw [h2] at h
      cases h
      exact (List.mem_filter.1 (mostRecent_mem _ _ h2)).1
    | none =>
      rw [h2] at h
      by_cases h3 : p.address != ""
      · rw [if_pos h3] at h
        exact (List.mem_filter.1 (mostRecent_mem _ _ h)).1
      · rw [if_neg h3] at h
        cases h

/-! ## Claim C10: the business_99_status frame -/

/-- The business_99_status frame of one store transition: the id sequence
    never moves backwards, and every row of the new store either keeps the
    business_99_status of the old row carrying its id, or is a row created
    during the transition — its id drawn at or beyond the old id sequence —
    holding the model default empty string. -/
def b99Preserved (dbOld dbNew : DB) : Prop :=
  dbOld.nextId ≤ dbNew.nextId ∧
    ∀ l' ∈ dbNew.leads,
      (∃ l ∈ dbOld.leads, l.id = l'.id ∧ l.business_99_status = l'.business_99_status) ∨
        (dbOld.nextId ≤ l'.id ∧ l'.business_99_status = "")

theorem b99Preserved_refl (db : DB) : b99Preserved db db :=
  ⟨le_refl _, fun l' h => .inl ⟨l', h, rfl, rfl⟩⟩

theorem b99Preserved_trans {a b c : DB} (h1 : b99Preserved a b) (h2 : b99Preserved b c) :
    b99Preserved a c := by
  obtain ⟨hn1, h1⟩ := h1
  obtain ⟨hn2, h2⟩ := h2
  refine ⟨le_trans hn1 hn2, ?_⟩
  intro l' hl'
  rcases h2 l' hl' with ⟨l, hl, hid, hb⟩ | ⟨hge, hb⟩
  · rcases h1 l hl with ⟨l0, hl0, hid0, hb0⟩ | ⟨hge0, hb0⟩
    · exact .inl ⟨l0, hl0, hid0.trans hid, hb0.trans hb⟩
    · refine .inr ⟨?_, by rw [← hb]; exact hb0⟩
      rw [← hid]
      exact hge0
  · exact .inr ⟨le_trans hn1 hge, hb⟩

theorem saveReplace_b99 (db : DB) (lead : Lead) (X : Lead)
    (hmem : lead ∈ db.leads) (hid : X.id = lead.id)
    (hb : X.business_99_status = lead.business_99_status) :
    b99Preserved db (saveReplace db lead.id X) := by
  refine ⟨le_refl _, ?_⟩
  intro l' hl'
  simp only [saveReplace, List.mem_map] at hl'
  obtain ⟨o, ho, rfl⟩ := hl'
  by_cases hcase : o.id = lead.id
  · simp only [if_pos hcase]
    exact .inl ⟨lead, hmem, by rw [hid], by rw [hb]⟩
  · simp only [if_neg hcase]
    exact .inl ⟨o, ho, rfl, rfl⟩

theorem createLead_b99 (db : DB) (p : Parsed) (key : String) (db' : DB)
    (h : createLead db p key = .ok db') : b99Preserved db db' := by
  unfold createLead at h
  simp only [] at h
  split at h
  · cases h
  · cases h
    refine ⟨Nat.le_succ _, ?_⟩
    intro l' hl'
    rcases List.mem_append.1 hl' with hold | hnew
    · exact .inl ⟨l', hold, rfl, rfl⟩
    · rcases List.mem_singleton.1 hnew with rfl
      exact .inr ⟨le_refl _, rfl⟩

theorem updateLead_b99 (db : DB) (lead : Lead) (p : Parsed) (key : String) (db' : DB)
    (hmem : lead ∈ db.leads) (h : updateLead db lead p key = .ok db') :
    b99Preserved db db' := by
  unfold updateLead at h
  simp only [] at h
  by_cases hq : ((setFields lead p key).representative_phone_norm != "" &&
      !(setFields lead p key).is_blocked_number &&
      db.leads.any fun o =>
        o.id != lead.id &&
          o.representative_phone_norm == (setFields lead p key).representative_phone_norm &&
          o.is_blocked_number) = true
  · rw [if_pos hq] at h
    split at h
    · split at h
      · cases h
        exact saveReplace_b99 db lead _ hmem rfl rfl
      · cases h
    · cases h
      exact saveReplace_b99 db lead _ hmem rfl rfl
  · rw [if_neg hq] at h
    split at h
    · split at h
      · cases h
        exact saveReplace_b99 db lead _ hmem rfl rfl
      · cases h
    · cases h
      exact saveReplace_b99 db lead _ hmem rfl rfl

theorem upsert_row_b99 (ds : String) (db : DB) (item : RawItem) (db' : DB)
    (oc : RowOutcome) (h : upsert_row ds db item = .ok (db', oc)) :
    b99Preserved db db' := by
  cases item with
  | notMapping =>
    cases h
    exact b99Preserved_refl db
  | mapping kvs =>
    unfold upsert_row at h
    simp only [] at h
    cases hm : normalize_row kvs ds with
    | error e =>
      rw [hm] at h
      cases h
    | ok p =>
      rw [hm, except_bind_ok] at h
      split at h
      · cases h
        exact b99Preserved_refl db
      · cases hr : resolveMatch db p (build_unique_key p) with
        | some lead =>
          rw [hr] at h
          simp only [] at h
          cases hu : updateLead db lead p (build_unique_key p) with
          | error e =>
            rw [hu] at h
            cases h
          | ok dbu =>
            rw [hu] at h
            cases h
            exact updateLead_b99 db lead p _ db' (resolveMatch_mem db p _ lead hr) hu
        | none =>
          rw [hr] at h
          simp only [] at h
          cases hc : createLead db p (build_unique_key p) with
          | error e =>
            rw [hc] at h
            cases h
          | ok dbc =>
            rw [hc] at h
            cases h
            exact createLead_b99 db p _ db' hc

theorem upsert_fold_b99 (ds : String) :
    ∀ (rows : List RawItem) (db : DB) (acc : Counters) (db' : DB) (c' : Counters),
      (rows.foldlM (fun acc item => do
        let (db', oc) ← upsert_row ds acc.1 item
        pure (db', acc.2.bump oc)) (db, acc)) = .ok (db', c') →
      b99Preserved db db' := by
  intro rows
  induction rows with
  | nil =>
    intro db acc db' c' h
    cases h
    exact b99Preserved_refl db
  | cons item rest ih =>
    intro db acc db' c' h
    simp only [List.foldlM] at h ih
    cases hs : upsert_row ds db item with
    | error e =>
      rw [hs] at h
      cases h
    | ok res =>
      obtain ⟨dbm, oc⟩ := res
      rw [hs] at h
      exact b99Preserved_trans (upsert_row_b99 ds db item dbm oc hs) (ih dbm _ db' c' h)

/-- C10: no upsert_rows call ever writes business_99_status: no header alias
    maps to it, it is not among the normalized columns copied on update, and
    a created row carries the model default empty string — so after a
    successful call on a store whose id sequence is ahead of every stored
    row, every stored row either keeps the business_99_status held before
    the call by the row with its id (updates leave it unchanged), or is a
    newly created row, matching no pre-existing id, that holds the empty
    string. -/
theorem c10_upsert_never_writes_business_99_status
    (rows : List RawItem) (ds : String) (db db' : DB) (c' : Counters)
    (h : upsert_rows rows ds db = .ok (db', c'))
    (hbound : ∀ l ∈ db.leads, l.id < db.nextId) :
    ((HEADER_ALIASES.map Prod.snd).contains "business_99_status" = false) ∧
    ∀ l' ∈ db'.leads,
      (∃ l ∈ db.leads, l.id = l'.id ∧ l.business_99_status = l'.business_99_status) ∨
        ((∀ l ∈ db.leads, l.id ≠ l'.id) ∧ l'.business_99_status = "") := by
  refine ⟨by decide, ?_⟩
  unfold upsert_rows at h
  have hframe := upsert_fold_b99 ds rows db {} db' c' h
  intro l' hl'
  rcases hframe.2 l' hl' with hkeep | ⟨hge, hb⟩
  · exact .inl hkeep
  · refine .inr ⟨?_, hb⟩
    intro l hl heq
    have := hbound l hl
    omega

/-- A one-lead store used to instantiate the frame theorem. -/
def c10wdb : DB :=
  { leads := [{ id := 1, business_99_status := "Ativado", unique_key := "w10" }],
    nextId := 2, clock := 2 }

/-- The frame theorem applied at a one-lead store and an ignored row, with
    the run and id-bound hypotheses discharged by evaluation. -/
theorem c10_witness :
    ((HEADER_ALIASES.map Prod.snd).contains "business_99_status" = false) ∧
    ∀ l' ∈ c10wdb.leads,
      (∃ l ∈ c10wdb.leads, l.id = l'.id ∧ l.business_99_status = l'.business_99_status) ∨
        ((∀ l ∈ c10wdb.leads, l.id ≠ l'.id) ∧ l'.business_99_status = "") :=
  c10_upsert_never_writes_business_99_status [.mapping []] "api" c10wdb c10wdb
    { ignored := 1 } (by decide) (by decide)

/-! ## Claim C6: match resolution order -/

theorem findByKey_none (db : DB) (key : String)
    (h : ∀ o ∈ db.leads, o.unique_key ≠ key) : findByKey db key = none := by
  unfold findByKey
  rw [List.find?_eq_none]
  intro x hx
  simpa using h x hx

theorem findByKey_some (db : DB) (key : String) (L : Lead)
    (hnodup : (db.leads.map (·.unique_key)).Nodup)
    (hmem : L ∈ db.leads) (hkey : L.unique_key = key) :
    findByKey db key = some L := by
  unfold findByKey
  cases hf : db.leads.find? (fun l => l.unique_key == key) with
  | none =>
    rw [List.find?_eq_none] at hf
    exact absurd (by simpa using hkey) (hf L hmem)
  | some x =>
    have hxmem : x ∈ db.leads := List.mem_of_find?_eq_some hf
    have hxkey : x.unique_key = key := by simpa using List.find?_some hf
    have : x = L := List.inj_on_of_nodup_map hnodup hxmem hmem (by rw [hxkey, hkey])
    rw [this]

theorem foldl_mrPick_total (t : List Lead) :
    ∀ b : Lead, ∃ m, t.foldl mrPick (some b) = some m := by
  induction t with
  | nil => exact fun b => ⟨b, rfl⟩
  | cons a t ih =>
    intro b
    by_cases hlt : b.last_seen_at < a.last_seen_at
    · obtain ⟨m, hm⟩ := ih a
      exact ⟨m, by simpa [mrPick, hlt] using hm⟩
    · obtain ⟨m, hm⟩ := ih b
      exact ⟨m, by simpa [mrPick, hlt] using hm⟩

theorem mostRecent_total (ls : List Lead) (L : Lead) (h : L ∈ ls) :
    ∃ m, mostRecent ls = some m := by
  cases ls with
  | nil => cases h
  | cons a t => exact foldl_mrPick_total t a

theorem filter_eq_nil_of_all_false (p : Lead → Bool) (ls : List Lead)
    (h : ∀ o ∈ ls, p o = false) : ls.filter p = [] := by
  rw [List.filter_eq_nil_iff]
  intro a ha
  simp [h a ha]

/-- C6: the existing-match lookup of upsert_rows resolves tiers in order
    with the first hit winning: an exact unique-key match is returned (keys
    being unique); otherwise, when some stored row satisfies the tier-2
    predicate (same source, case-insensitive city and establishment name,
    exact phone norm), a tier-2 candidate of maximal last_seen_at is
    returned; otherwise, when the incoming address is non-empty and some row
    satisfies the tier-3 predicate (same source, case-insensitive city,
    establishment name and address), a tier-3 candidate of maximal
    last_seen_at is returned; otherwise the row is treated as new. -/
theorem c6_match_resolution_tiers (db : DB) (p : Parsed) (key : String) :
    ((db.leads.map (·.unique_key)).Nodup →
      ∀ L ∈ db.leads, L.unique_key = key → resolveMatch db p key = some L) ∧
    ((∀ o ∈ db.leads, o.unique_key ≠ key) →
      ∀ L ∈ db.leads, tier2Matches p L = true →
      ∃ M, resolveMatch db p key = some M ∧ M ∈ db.leads ∧ tier2Matches p M = true ∧
        ∀ o ∈ db.leads, tier2Matches p o = true → o.last_seen_at ≤ M.last_seen_at) ∧
    ((∀ o ∈ db.leads, o.unique_key ≠ key) →
      (∀ o ∈ db.leads, tier2Matches p o = false) →
      p.address ≠ "" →
      ∀ L ∈ db.leads, tier3Matches p L = true →
      ∃ M, resolveMatch db p key = some M ∧ M ∈ db.leads ∧ tier3Matches p M = true ∧
        ∀ o ∈ db.leads, tier3Matches p o = true → o.last_seen_at ≤ M.last_seen_at) ∧
    ((∀ o ∈ db.leads, o.unique_key ≠ key) →
      (∀ o ∈ db.leads, tier2Matches p o = false) →
      (p.address = "" ∨ ∀ o ∈ db.leads, tier3Matches p o = false) →
      resolveMatch db p key = none) := by
  refine ⟨?_, ?_, ?_, ?_⟩
  · intro hnodup L hmem hkey
    unfold resolveMatch
    rw [findByKey_some db key L hnodup hmem hkey]
  · intro hnokey L hmem ht2
    have hLfilter : L ∈ db.leads.filter (tier2Matches p) :=
      List.mem_filter.2 ⟨hmem, ht2⟩
    obtain ⟨M, hM⟩ := mostRecent_total _ L hLfilter
    refine ⟨M, ?_, ?_, ?_, ?_⟩
    · unfold resolveMatch
      rw [findByKey_none db key hnokey, hM]
    · exact (List.mem_filter.1 (mostRecent_mem _ _ hM)).1
    · exact (List.mem_filter.1 (mostRecent_mem _ _ hM)).2
    · intro o ho hot2
      exact mostRecent_maximal _ _ hM o (List.mem_filter.2 ⟨ho, hot2⟩)
  · intro hnokey hnot2 haddr L hmem ht3
    have h2nil : db.leads.filter (tier2Matches p) = [] :=
      filter_eq_nil_of_all_false _ _ hnot2
    have hLfilter : L ∈ db.leads.filter (tier3Matches p) :=
      List.mem_filter.2 ⟨hmem, ht3⟩
    obtain ⟨M, hM⟩ := mostRecent_total _ L hLfilter
    refine ⟨M, ?_, ?_, ?_, ?_⟩
    · unfold resolveMatch
      rw [findByKey_none db key hnokey, h2nil]
      simp only [mostRecent]
      rw [if_pos (by simpa using haddr)]
      exact hM
    · exact (List.mem_filter.1 (mostRecent_mem _ _ hM)).1
    · exact (List.mem_filter.1 (mostRecent_mem _ _ hM)).2
    · intro o ho hot3
      exact mostRecent_maximal _ _ hM o (List.mem_filter.2 ⟨ho, hot3⟩)
  · intro hnokey hnot2 hlast
    have h2nil : db.leads.filter (tier2Matches p) = [] :=
      filter_eq_nil_of_all_false _ _ hnot2
    unfold resolveMatch
    rw [findByKey_none db key hnokey, h2nil]
    simp only [mostRecent]
    rcases hlast with haddr | hnot3
    · rw [if_neg (by simp [haddr])]
      rfl
    · rw [filter_eq_nil_of_all_false _ _ hnot3]
      by_cases haddr : p.address != ""
      · rw [if_pos haddr]
        rfl
      · rw [if_neg haddr]
        rfl

/-- A two-candidate tier-2 store for instantiating the resolution theorem. -/
def c6db : DB :=
  { leads :=
      [{ id := 1, source := "api", city := "rio", establishment_name := "LOJA",
         representative_phone_norm := "5521999990000", unique_key := "k1",
         last_seen_at := 5 },
       { id := 2, source := "api", city := "Rio", establishment_name := "Loja",
         representative_phone_norm := "5521999990000", unique_key := "k2",
         last_seen_at := 9 }],
    nextId := 3, clock := 10 }

def c6p : Parsed :=
  { city := "Rio", establishment_name := "loja",
    representative_phone_norm := "5521999990000", source := "api" }

/-- The resolution theorem applied at a concrete store in its tier-2 case,
    hypotheses discharged by evaluation. -/
theorem c6_witness :
    ∃ M, resolveMatch c6db c6p "nokey" = some M ∧ M ∈ c6db.leads ∧
      tier2Matches c6p M = true ∧
      ∀ o ∈ c6db.leads, tier2Matches c6p o = true →
        o.last_seen_at ≤ M.last_seen_at :=
  (c6_match_resolution_tiers c6db c6p "nokey").2.1 (by decide)
    { id := 1, source := "api", city := "rio", establishment_name := "LOJA",
      representative_phone_norm := "5521999990000", unique_key := "k1",
      last_seen_at := 5 }
    (by decide) (by decide)

/-! ## Claim C4: second ingestion of an unchanged row -/

/-- Store sanity: row ids unique, keys unique (the database constraints),
    and the id sequence ahead of every stored row. -/
def DB.wf (db : DB) : Prop :=
  (db.leads.map (·.id)).Nodup ∧ (db.leads.map (·.unique_key)).Nodup ∧
    ∀ l ∈ db.leads, l.id < db.nextId

theorem no_key_of_findByKey_none (db : DB) (key : String)
    (h : findByKey db key = none) : ∀ o ∈ db.leads, o.unique_key ≠ key := by
  unfold findByKey at h
  rw [List.find?_eq_none] at h
  intro o ho
  simpa using h o ho

theorem resolveMatch_none_findByKey (db : DB) (p : Parsed) (key : String)
    (h : resolveMatch db p key = none) : findByKey db key = none := by
  unfold resolveMatch at h
  cases hf : findByKey db key with
  | some l =>
    rw [hf] at h
    cases h
  | none => rfl

theorem ids_ne_of_split (u v : List Lead) (lead : Lead)
    (h : ((u ++ lead :: v).map (·.id)).Nodup) :
    (∀ o ∈ u, o.id ≠ lead.id) ∧ (∀ o ∈ v, o.id ≠ lead.id) := by
  rw [List.map_append, List.nodup_append] at h
  obtain ⟨hu, hcons, hdisj⟩ := h
  rw [List.map_cons, List.nodup_cons] at hcons
  obtain ⟨hnotin, hv⟩ := hcons
  constructor
  · intro o ho heq
    exact hdisj (List.mem_map_of_mem _ ho) (by simp [heq])
  · intro o ho heq
    exact hnotin (by rw [← heq]; exact List.mem_map_of_mem _ ho)

theorem keys_split (u v : List Lead) (lead : Lead)
    (h : ((u ++ lead :: v).map (·.unique_key)).Nodup) :
    (u.map (·.unique_key)).Nodup ∧ (v.map (·.unique_key)).Nodup ∧
      lead.unique_key ∉ v.map (·.unique_key) ∧
      ∀ a ∈ u.map (·.unique_key), a ≠ lead.unique_key ∧ a ∉ v.map (·.unique_key) := by
  rw [List.map_append, List.nodup_append] at h
  obtain ⟨hu, hcons, hdisj⟩ := h
  rw [List.map_cons, List.nodup_cons] at hcons
  refine ⟨hu, hcons.2, hcons.1, fun a ha => ⟨?_, ?_⟩⟩
  · intro heq
    exact hdisj ha (by simp [heq])
  · intro hv
    exact hdisj ha (List.mem_cons_of_mem _ hv)

/-- Replacing the key of one stored row by a key that is either its own or
    fresh keeps the key column duplicate-free. -/
theorem nodup_keys_update (ls : List Lead) (lead : Lead) (newkey : String)
    (hids : (ls.map (·.id)).Nodup) (hkeys : (ls.map (·.unique_key)).Nodup)
    (hmem : lead ∈ ls)
    (hfresh : lead.unique_key = newkey ∨ ∀ o ∈ ls, o.unique_key ≠ newkey) :
    (ls.map fun o => if o.id = lead.id then newkey else o.unique_key).Nodup := by
  rcases hfresh with hown | hfresh
  · have : (ls.map fun o => if o.id = lead.id then newkey else o.unique_key)
        = ls.map (·.unique_key) := by
      apply List.map_congr_left
      intro o ho
      by_cases hid : o.id = lead.id
      · have : o = lead := List.inj_on_of_nodup_map hids ho hmem hid
        rw [if_pos hid, this, hown]
      · rw [if_neg hid]
    rw [this]
    exact hkeys
  · obtain ⟨u, v, rfl⟩ := List.append_of_mem hmem
    obtain ⟨hu_ne, hv_ne⟩ := ids_ne_of_split u v lead hids
    obtain ⟨hknu, hknv, hlnv, hkdis⟩ := keys_split u v lead hkeys
    have hmapu : (u.map fun o => if o.id = lead.id then newkey else o.unique_key)
        = u.map (·.unique_key) :=
      List.map_congr_left fun o ho => if_neg (hu_ne o ho)
    have hmapv : (v.map fun o => if o.id = lead.id then newkey else o.unique_key)
        = v.map (·.unique_key) :=
      List.map_congr_left fun o ho => if_neg (hv_ne o ho)
    rw [List.map_append, List.map_cons, hmapu, hmapv, if_pos rfl, List.nodup_append]
    refine ⟨hknu, ?_, ?_⟩
    · rw [List.nodup_cons]
      refine ⟨?_, hknv⟩
      intro hin
      rcases List.mem_map.1 hin with ⟨o, ho, heq⟩
      exact hfresh o (List.mem_append_right u (List.mem_cons_of_mem _ ho)) heq
    · intro a ha hain
      rcases List.mem_cons.1 hain with rfl | hav
      · rcases List.mem_map.1 ha with ⟨o, ho, heq⟩
        exact hfresh o (List.mem_append_left _ ho) heq
      · exact (hkdis a ha).2 hav

/-- The create path succeeds when no stored row holds the key, and leaves a
    well-formed store holding the key with one more row. -/
theorem createLead_post (db : DB) (p : Parsed) (key : String)
    (hwf : db.wf) (hnokey : ∀ o ∈ db.leads, o.unique_key ≠ key) :
    ∃ db1, createLead db p key = .ok db1 ∧ db1.wf ∧
      (∃ L ∈ db1.leads, L.unique_key = key) ∧
      db1.leads.length = db.leads.length + 1 := by
  obtain ⟨hids, hkeys, hbound⟩ := hwf
  have hany : (db.leads.any fun o => o.unique_key == key) = false := by
    rw [List.any_eq_false]
    intro o ho
    simpa using hnokey o ho
  unfold createLead
  simp only [hany]
  refine ⟨_, rfl, ⟨?_, ?_, ?_⟩, ⟨mkLead db.nextId db.clock p key _,
    List.mem_append_right _ (List.mem_singleton.2 rfl), rfl⟩, by simp⟩
  · rw [List.map_append, List.nodup_append]
    refine ⟨hids, by simp, ?_⟩
    intro a ha hain
    simp only [List.map_cons, List.map_nil, List.mem_singleton] at hain
    rcases List.mem_map.1 ha with ⟨o, ho, heq⟩
    subst hain
    have hlt := hbound o ho
    simp only [mkLead] at heq
    omega
  · rw [List.map_append, List.nodup_append]
    refine ⟨hkeys, by simp, ?_⟩
    intro a ha hain
    simp only [List.map_cons, List.map_nil, List.mem_singleton] at hain
    rcases List.mem_map.1 ha with ⟨o, ho, heq⟩
    subst hain
    exact hnokey o ho (by rw [← heq])
  · intro l hl
    rcases List.mem_append.1 hl with hold | hnew
    · exact Nat.lt_succ_of_lt (hbound l hold)
    · rcases List.mem_singleton.1 hnew with rfl
      exact Nat.lt_succ_self _

/-- Committing one modified row whose id is the replaced row's own and whose
    key is its own or fresh keeps the store well formed, stores the key, and
    keeps the row count. -/
theorem saveReplace_post (db : DB) (lead X : Lead) (key : String)
    (hwf : db.wf) (hmem : lead ∈ db.leads)
    (hXid : X.id = lead.id) (hXkey : X.unique_key = key)
    (hsafe : lead.unique_key = key ∨ ∀ o ∈ db.leads, o.unique_key ≠ key) :
    (saveReplace db lead.id X).wf ∧
      (∃ L ∈ (saveReplace db lead.id X).leads, L.unique_key = key) ∧
      (saveReplace db lead.id X).leads.length = db.leads.length := by
  obtain ⟨hids, hkeys, hbound⟩ := hwf
  have hidmap : (saveReplace db lead.id X).leads.map (·.id) = db.leads.map (·.id) := by
    simp only [saveReplace, List.map_map]
    apply List.map_congr_left
    intro o ho
    by_cases h : o.id = lead.id
    · simp [Function.comp, h, hXid]
    · simp [Function.comp, h]
  have hkeymap : (saveReplace db lead.id X).leads.map (·.unique_key)
      = db.leads.map fun o => if o.id = lead.id then key else o.unique_key := by
    simp only [saveReplace, List.map_map]
    apply List.map_congr_left
    intro o ho
    by_cases h : o.id = lead.id
    · simp [Function.comp, h, hXkey]
    · simp [Function.comp, h]
  refine ⟨⟨?_, ?_, ?_⟩, ?_, ?_⟩
  · rw [hidmap]
    exact hids
  · rw [hkeymap]
    exact nodup_keys_update db.leads lead key hids hkeys hmem hsafe
  · intro l hl
    simp only [saveReplace, List.mem_map] at hl
    obtain ⟨o, ho, rfl⟩ := hl
    by_cases h : o.id = lead.id
    · rw [if_pos h, hXid, ← h]
      exact hbound o ho
    · rw [if_neg h]
      exact hbound o ho
  · refine ⟨X, ?_, hXkey⟩
    simp only [saveReplace, List.mem_map]
    exact ⟨lead, hmem, if_pos rfl⟩
  · simp [saveReplace]

/-- The update path succeeds when the computed key is the matched row's own
    or fresh, and leaves a well-formed store holding the key with the same
    row count. -/
theorem updateLead_post (db : DB) (lead : Lead) (p : Parsed) (key : String)
    (hwf : db.wf) (hmem : lead ∈ db.leads)
    (hsafe : lead.unique_key = key ∨ ∀ o ∈ db.leads, o.unique_key ≠ key) :
    ∃ db1, updateLead db lead p key = .ok db1 ∧ db1.wf ∧
      (∃ L ∈ db1.leads, L.unique_key = key) ∧
      db1.leads.length = db.leads.length := by
  obtain ⟨hids, hkeys, hbound⟩ := hwf
  unfold updateLead
  simp only []
  by_cases hq : ((setFields lead p key).representative_phone_norm != "" &&
      !(setFields lead p key).is_blocked_number &&
      db.leads.any fun o =>
        o.id != lead.id &&
          o.representative_phone_norm == (setFields lead p key).representative_phone_norm &&
          o.is_blocked_number) = true
  · rw [if_pos hq]
    split
    · exfalso
      rename_i hcond
      obtain ⟨o, ho, hpo⟩ := List.any_eq_true.1 hcond
      simp only [Bool.and_eq_true, bne_iff_ne, beq_iff_eq] at hpo
      obtain ⟨hne, hkeyo⟩ := hpo
      have hkeyo' : o.unique_key = key := hkeyo
      rcases hsafe with hown | hfresh
      · have : o = lead :=
          List.inj_on_of_nodup_map hkeys ho hmem (by rw [hkeyo', ← hown])
        exact hne (by rw [this])
      · exact hfresh o ho hkeyo'
    · refine ⟨_, rfl, ?_, ?_, ?_⟩
      · refine (saveReplace_post db lead _ key ⟨hids, hkeys, hbound⟩ hmem ?_ ?_ hsafe).1
        · rfl
        · rfl
      · refine (saveReplace_post db lead _ key ⟨hids, hkeys, hbound⟩ hmem ?_ ?_ hsafe).2.1
        · rfl
        · rfl
      · refine (saveReplace_post db lead _ key ⟨hids, hkeys, hbound⟩ hmem ?_ ?_ hsafe).2.2
        · rfl
        · rfl
  · rw [if_neg hq]
    split
    · exfalso
      rename_i hcond
      obtain ⟨o, ho, hpo⟩ := List.any_eq_true.1 hcond
      simp only [Bool.and_eq_true, bne_iff_ne, beq_iff_eq] at hpo
      obtain ⟨hne, hkeyo⟩ := hpo
      have hkeyo' : o.unique_key = key := hkeyo
      rcases hsafe with hown | hfresh
      · have : o = lead :=
          List.inj_on_of_nodup_map hkeys ho hmem (by rw [hkeyo', ← hown])
        exact hne (by rw [this])
      · exact hfresh o ho hkeyo'
    · refine ⟨_, rfl, ?_, ?_, ?_⟩
      · refine (saveReplace_post db lead _ key ⟨hids, hkeys, hbound⟩ hmem ?_ ?_ hsafe).1
        · rfl
        · rfl
      · refine (saveReplace_post db lead _ key ⟨hids, hkeys, hbound⟩ hmem ?_ ?_ hsafe).2.1
        · rfl
        · rfl
      · refine (saveReplace_post db lead _ key ⟨hids, hkeys, hbound⟩ hmem ?_ ?_ hsafe).2.2
        · rfl
        · rfl

/-- First ingestion of a valid row against a well-formed store: it succeeds
    and afterwards some stored row holds the row's computed key. -/
theorem upsert_row_valid_post (ds : String) (db : DB) (kvs : List (String × String))
    (p : Parsed) (hwf : db.wf) (hn : normalize_row kvs ds = .ok p)
    (hp : anyFieldPopulated p = true) :
    ∃ db1 oc, upsert_row ds db (.mapping kvs) = .ok (db1, oc) ∧ db1.wf ∧
      (∃ L ∈ db1.leads, L.unique_key = build_unique_key p) ∧
      (oc = .created ∨ oc = .updated) := by
  cases hres : resolveMatch db p (build_unique_key p) with
  | none =>
    have hnokey := no_key_of_findByKey_none db _ (resolveMatch_none_findByKey db p _ hres)
    obtain ⟨db1, hc, hwf1, hkey1, _⟩ := createLead_post db p _ hwf hnokey
    refine ⟨db1, .created, ?_, hwf1, hkey1, .inl rfl⟩
    unfold upsert_row
    simp only []
    rw [hn, except_bind_ok, if_neg (by simp [hp]), hres]
    simp only []
    rw [hc]
    rfl
  | some lead =>
    have hmem := resolveMatch_mem db p _ lead hres
    have hsafe : lead.unique_key = build_unique_key p ∨
        ∀ o ∈ db.leads, o.unique_key ≠ build_unique_key p := by
      unfold resolveMatch at hres
      cases hf : findByKey db (build_unique_key p) with
      | some L =>
        rw [hf] at hres
        cases hres
        exact .inl (by simpa using List.find?_some hf)
      | none =>
        exact .inr (no_key_of_findByKey_none db _ hf)
    obtain ⟨db1, hu, hwf1, hkey1, _⟩ := updateLead_post db lead p _ hwf hmem hsafe
    refine ⟨db1, .updated, ?_, hwf1, hkey1, .inr rfl⟩
    unfold upsert_row
    simp only []
    rw [hn, except_bind_ok, if_neg (by simp [hp]), hres]
    simp only []
    rw [hu]
    rfl

/-- Re-ingestion of a row whose key is already stored in a well-formed
    store: the unique-key tier hits, the row is updated and the row count
    does not change. -/
theorem upsert_row_keyhit (ds : String) (db1 : DB) (kvs : List (String × String))
    (p : Parsed) (hwf1 : db1.wf) (hn : normalize_row kvs ds = .ok p)
    (hp : anyFieldPopulated p = true)
    (hkey : ∃ L ∈ db1.leads, L.unique_key = build_unique_key p) :
    ∃ db2, upsert_row ds db1 (.mapping kvs) = .ok (db2, .updated) ∧
      db2.leads.length = db1.leads.length := by
  obtain ⟨L, hLmem, hLkey⟩ := hkey
  have hf : findByKey db1 (build_unique_key p) = some L :=
    findByKey_some db1 _ L hwf1.2.1 hLmem hLkey
  have hres : resolveMatch db1 p (build_unique_key p) = some L := by
    unfold resolveMatch
    rw [hf]
  obtain ⟨db2, hu, _, _, hlen⟩ := updateLead_post db1 L p _ hwf1 hLmem (.inl hLkey)
  refine ⟨db2, ?_, hlen⟩
  unfold upsert_row
  simp only []
  rw [hn, except_bind_ok, if_neg (by simp [hp]), hres]
  simp only []
  rw [hu]
  rfl

/-- C4: ingesting the same mapping row twice with the same default source
    against a well-formed store: the first call succeeds and stores the
    row's key, and the second call resolves it through the unique-key tier
    and reports created=0, updated=1 without changing the number of stored
    leads. -/
theorem c4_repeated_row_updates_without_growth
    (db : DB) (kvs : List (String × String)) (ds : String) (p : Parsed)
    (hwf : db.wf) (hn : normalize_row kvs ds = .ok p)
    (hp : anyFieldPopulated p = true) :
    ∃ db1 c1 db2 c2,
      upsert_rows [.mapping kvs] ds db = .ok (db1, c1) ∧
      upsert_rows [.mapping kvs] ds db1 = .ok (db2, c2) ∧
      c2.created = 0 ∧ c2.updated = 1 ∧
      db2.leads.length = db1.leads.length := by
  obtain ⟨db1, oc, hrow1, hwf1, hkey1, _⟩ := upsert_row_valid_post ds db kvs p hwf hn hp
  obtain ⟨db2, hrow2, hlen⟩ := upsert_row_keyhit ds db1 kvs p hwf1 hn hp hkey1
  refine ⟨db1, Counters.bump {} oc, db2, { updated := 1 }, ?_, ?_, rfl, rfl, hlen⟩
  · unfold upsert_rows
    simp only [List.foldlM]
    rw [hrow1]
    rfl
  · unfold upsert_rows
    simp only [List.foldlM]
    rw [hrow2]
    rfl

/-- The idempotence theorem applied at the empty store and a one-column row,
    hypotheses discharged by evaluation. -/
theorem c4_witness :
    ∃ db1 c1 db2 c2,
      upsert_rows [.mapping [("Cidade", "Rio")]] "api" {} = .ok (db1, c1) ∧
      upsert_rows [.mapping [("Cidade", "Rio")]] "api" db1 = .ok (db2, c2) ∧
      c2.created = 0 ∧ c2.updated = 1 ∧
      db2.leads.length = db1.leads.length :=
  c4_repeated_row_updates_without_growth {} [("Cidade", "Rio")] "api"
    { city := "Rio", source := "api" }
    ⟨by decide, by decide, by decide⟩ (by decide) (by decide)
